import Mathlib

/-!
Verification development for the PyNFL league-management engine.

This file gives a shallow embedding of the playoff seeding / bracket
generation engine (`src/utils/playoff_generator.py`), the standings
tie-break calculator (`src/utils/standings_calculator.py`) and the
preseason matchup scheduler (`src/tabs/schedule/preseason_generator.py`),
together with theorems settling the specification claims about them.

Modelling conventions:
* The SQLite store is a `DB` structure holding the rows of the tables the
  engine touches (`leagues`, `conferences`, `divisions`, `teams`, `games`,
  `playoff_seeds`).  SQL queries become list filters/maps over those rows,
  `INSERT` appends rows, `DELETE` filters rows out; each generator is a
  function `DB → Bool × DB` returning the Python success flag and the
  store after all commits.
* Python float percentages (`wins / games`) are modelled as exact integer
  fractions (`Frac`) compared by cross-multiplication: this is the real
  number semantics of the division the code performs.
* `random.shuffle` and `random.choice` are modelled as oracle parameters
  (`orders`, `coins`); every concrete run of the Python code corresponds
  to one choice of oracle values.
* Python's stable `sorted` / `list.sort` is modelled by `pySorted`, a
  stable insertion sort (stability plus sortedness determines the output
  of any stable sort, hence of Python's).
* Presentational columns that no claim touches (`day_of_week`,
  `game_notes`, `playoff_bracket_position`, name strings) are omitted;
  team/league name text is coded as a number where an ordering matters.
-/

namespace PyNFL

/-! ## Exact fractions: model of the Python float divisions -/

/-- Exact fraction `num / den` with positive denominator; the value of a
Python percentage expression such as `wins / (wins + losses)`. -/
structure Frac where
  num : Int
  den : Int
deriving Repr, DecidableEq, Inhabited

/-- Percentage `w / (w + l)`, and `0` when no games were played, exactly as
the Python code guards each division by `if ... > 0 else 0`. -/
def mkPct (w l : Nat) : Frac :=
  if 0 < w + l then ⟨w, w + l⟩ else ⟨0, 1⟩

/-- Fraction of an integer quantity (points differential / points scored)
appearing in the same Python sort key tuple as the percentages. -/
def intFrac (n : Int) : Frac := ⟨n, 1⟩

/-- Cross-multiplication strict order on fractions (denominators are
positive by construction). -/
def Frac.lt (a b : Frac) : Bool := a.num * b.den < b.num * a.den

/-- Negation of a fraction: the `-x` in the Python descending sort keys. -/
def Frac.neg (a : Frac) : Frac := ⟨-a.num, a.den⟩

/-- Lexicographic comparison of equal-length key tuples, the semantics of
Python tuple comparison inside `sorted(..., key=...)`. -/
def fracListLe : List Frac → List Frac → Bool
  | [], _ => true
  | _ :: _, [] => false
  | a :: as, b :: bs =>
    if Frac.lt a b then true
    else if Frac.lt b a then false
    else fracListLe as bs

/-! ## Stable sort: model of Python `sorted` / `list.sort` -/

/-- Insert into a sorted list keeping earlier-listed elements first among
key-equal elements. -/
def pyInsert (le : α → α → Bool) (a : α) : List α → List α
  | [] => [a]
  | b :: l => if le a b then a :: b :: l else b :: pyInsert le a l

/-- Stable sort with respect to a total preorder `le`; the model of
Python's stable `sorted`. -/
def pySorted (le : α → α → Bool) (l : List α) : List α :=
  l.foldr (pyInsert le) []

/-- Python list slice `l[:n]` including the negative-index case used by
`wildcard_candidates[:num_wildcards]`. -/
def pySlice (l : List α) (n : Int) : List α :=
  if 0 ≤ n then l.take n.toNat else l.take (l.length - (-n).toNat)

/-! ## Data model: the table rows the engine reads and writes -/

/-- Row of the `leagues` table (the configuration columns the engine reads). -/
structure LeagueRow where
  league_id : Nat
  regular_season_games : Nat
  playoff_teams_per_conf : Nat
  preseason_games : Nat
  is_active : Bool
deriving Repr, DecidableEq, Inhabited

/-- Row of the `conferences` table. -/
structure ConferenceRow where
  conference_id : Nat
  league_id : Nat
  is_active : Bool
deriving Repr, DecidableEq, Inhabited

/-- Row of the `divisions` table. -/
structure DivisionRow where
  division_id : Nat
  conference_id : Nat
deriving Repr, DecidableEq, Inhabited

/-- Row of the `teams` table (name text coded as a number for ordering). -/
structure TeamRow where
  team_id : Nat
  team_name : Nat
  league_id : Nat
  conference_id : Nat
  division_id : Nat
  is_active : Bool
deriving Repr, DecidableEq, Inhabited

/-- Row of the `games` table. -/
structure GameRow where
  league_id : Nat
  season : Nat
  week : Nat
  game_type : String
  home_team_id : Nat
  away_team_id : Nat
  home_score : Int
  away_score : Int
  game_status : String
  playoff_round : Nat
  playoff_game_number : Nat
deriving Repr, DecidableEq, Inhabited

/-- Row of the `playoff_seeds` table, as inserted by
`_calculate_and_store_seeds`. -/
structure SeedRow where
  league_id : Nat
  season : Nat
  conference_id : Nat
  team_id : Nat
  seed_number : Nat
  is_division_winner : Bool
  division_id : Nat
  seed_type : String
  wins : Nat
  losses : Nat
  ties : Nat
  win_pct : Frac
deriving Repr, DecidableEq, Inhabited

/-- The SQLite store restricted to the tables the engine touches. -/
structure DB where
  leagues : List LeagueRow
  conferences : List ConferenceRow
  divisions : List DivisionRow
  teams : List TeamRow
  games : List GameRow
  playoff_seeds : List SeedRow
deriving Repr, DecidableEq, Inhabited

/-! ## Preseason scheduler (`preseason_generator.py`) -/

/-- `_get_preseason_settings`: number of preseason weeks from the league
row, `0` when no active league row exists. -/
def getPreseasonSettings (db : DB) (league_id : Nat) : Nat :=
  match db.leagues.find? (fun r => r.league_id == league_id && r.is_active) with
  | some r => r.preseason_games
  | none => 0

/-- Comparison implementing `ORDER BY division_id, team_name`. -/
def teamRowLe (a b : TeamRow) : Bool :=
  a.division_id < b.division_id ||
    (a.division_id == b.division_id && a.team_name ≤ b.team_name)

/-- Division ids in order of first appearance, the key order of the Python
`teams_by_division` insertion-ordered dict. -/
def divisionKeys (ts : List TeamRow) : List Nat :=
  ts.foldl (fun acc t => if acc.contains t.division_id then acc else acc ++ [t.division_id]) []

/-- `_get_teams_by_division`: active teams of the league ordered by
`(division_id, team_name)`, grouped by division. -/
def getTeamsByDivision (db : DB) (league_id : Nat) : List (Nat × List TeamRow) :=
  let ts := pySorted teamRowLe (db.teams.filter (fun t => t.league_id == league_id && t.is_active))
  (divisionKeys ts).map (fun d => (d, ts.filter (fun t => t.division_id == d)))

/-- `_validate_schedule_possible`: every division must leave at least
`weeks` non-division opponents. -/
def validateSchedulePossible (tbd : List (Nat × List TeamRow)) (weeks : Nat) : Bool :=
  let total := ((tbd.map Prod.snd).flatten).length
  tbd.all (fun g => !(total - g.2.length < weeks))

/-- The `team_to_division` dict built by
`_generate_balanced_weekly_matchups` (defaulting to `0` off-domain). -/
def teamToDivision (allTeams : List TeamRow) (tid : Nat) : Nat :=
  match allTeams.find? (fun t => t.team_id == tid) with
  | some t => t.division_id
  | none => 0

/-- `can_play`: different division and not already played (the played set
holds both orientations of each pair). -/
def canPlay (ttd : Nat → Nat) (played : List (Nat × Nat)) (t1 t2 : Nat) : Bool :=
  if ttd t1 == ttd t2 then false
  else if played.contains (t1, t2) || played.contains (t2, t1) then false
  else true

/-- `choose_home_away`: returns `(away, home)` by the priority rules,
with `remaining_games = total_weeks - current_week`; the final coin
models `random.choice`. -/
def chooseHomeAway (homeC awayC : Nat → Nat) (totalWeeks currentWeek : Nat)
    (coin : Bool) (t1 t2 : Nat) : Nat × Nat :=
  if homeC t1 = 0 ∧ totalWeeks - currentWeek ≤ 1 then (t2, t1)
  else if homeC t2 = 0 ∧ totalWeeks - currentWeek ≤ 1 then (t1, t2)
  else if awayC t1 = 0 ∧ totalWeeks - currentWeek ≤ 1 then (t1, t2)
  else if awayC t2 = 0 ∧ totalWeeks - currentWeek ≤ 1 then (t2, t1)
  else if homeC t1 < homeC t2 then (t2, t1)
  else if homeC t2 < homeC t1 then (t1, t2)
  else if awayC t1 < awayC t2 then (t1, t2)
  else if awayC t2 < awayC t1 then (t2, t1)
  else if coin then (t1, t2) else (t2, t1)

/-- `find_matchups`: backtracking search pairing the first team with each
later opponent in turn.  The Python recursion depth is bounded by the list
length, so a fuel of `length + 1` makes the model total without changing
its behaviour on any reachable call. -/
def findMatchups (cp : Nat → Nat → Bool) (cha : Nat → Nat → Nat × Nat) :
    Nat → List Nat → Option (List (Nat × Nat))
  | 0, _ => none
  | _ + 1, [] => some []
  | fuel + 1, first :: rest =>
    if (rest.length + 1) % 2 ≠ 0 then none
    else
      (List.range rest.length).findSome? (fun i =>
        if cp first (rest.getD i 0) then
          match findMatchups cp cha fuel (rest.take i ++ rest.drop (i + 1)) with
          | some ms => some (cha first (rest.getD i 0) :: ms)
          | none => none
        else none)

/-- The 100-attempt retry loop of `_generate_balanced_week_matchups`:
attempt `i` searches the oracle ordering `orders i`. -/
def tryAttempts (cp : Nat → Nat → Bool) (cha : Nat → Nat → Nat × Nat)
    (orders : Nat → List Nat) (fuel : Nat) : Nat → Nat → Option (List (Nat × Nat))
  | _, 0 => none
  | i, rem + 1 =>
    match findMatchups cp cha fuel (orders i) with
    | some ms => some ms
    | none => tryAttempts cp cha orders fuel (i + 1) rem

/-- Add the home-game counts of one week of matchups `(away, home)`. -/
def addHomeCounts (hc : Nat → Nat) (ms : List (Nat × Nat)) : Nat → Nat :=
  fun t => hc t + ms.countP (fun p => p.2 == t)

/-- Add the away-game counts of one week of matchups `(away, home)`. -/
def addAwayCounts (ac : Nat → Nat) (ms : List (Nat × Nat)) : Nat → Nat :=
  fun t => ac t + ms.countP (fun p => p.1 == t)

/-- Record both orientations of each played pair, as the Python set update
does. -/
def addPlayed (played : List (Nat × Nat)) (ms : List (Nat × Nat)) : List (Nat × Nat) :=
  played ++ (ms.map (fun p => [(p.1, p.2), (p.2, p.1)])).flatten

/-- Week-by-week loop of `_generate_balanced_weekly_matchups`, threading
the played set and the home/away counts; an empty or failed week raises in
Python, i.e. yields `none` here. -/
def genWeeksAux (ttd : Nat → Nat) (coins : Nat → Nat → Bool)
    (orders : Nat → Nat → List Nat) (fuel totalWeeks : Nat) :
    Nat → Nat → List (Nat × Nat) → (Nat → Nat) → (Nat → Nat) →
    Option (List (List (Nat × Nat)))
  | 0, _, _, _, _ => some []
  | rem + 1, week, played, hc, ac =>
    match tryAttempts (canPlay ttd played)
        (fun t1 t2 => chooseHomeAway hc ac totalWeeks week (coins t1 t2) t1 t2)
        (orders week) fuel 0 100 with
    | none => none
    | some [] => none
    | some (m :: ms) =>
      match genWeeksAux ttd coins orders fuel totalWeeks rem (week + 1)
          (addPlayed played (m :: ms)) (addHomeCounts hc (m :: ms))
          (addAwayCounts ac (m :: ms)) with
      | none => none
      | some rest => some ((m :: ms) :: rest)

/-- `_generate_balanced_weekly_matchups` on a flat team list.  The fuel
`#teams + 1` strictly bounds the Python recursion depth (one level per
two teams paired). -/
def generateBalancedWeeklyMatchups (allTeams : List TeamRow) (weeks : Nat)
    (orders : Nat → Nat → List Nat) (coins : Nat → Nat → Bool) :
    Option (List (List (Nat × Nat))) :=
  genWeeksAux (teamToDivision allTeams) coins orders
    ((allTeams.map (fun t => t.team_id)).length + 1) weeks
    weeks 1 [] (fun _ => 0) (fun _ => 0)

/-- `_create_scheduled_games`: tag each week's `(away, home)` pairs with
the 1-based week number, as `(week, away, home)`. -/
def createScheduledGames : Nat → List (List (Nat × Nat)) → List (Nat × Nat × Nat)
  | _, [] => []
  | w, wk :: rest => wk.map (fun p => (w, p.1, p.2)) ++ createScheduledGames (w + 1) rest

/-- `_insert_preseason_games`: append `PRESEASON` rows with status
`SCHEDULED`. -/
def insertPreseasonGames (db : DB) (league_id season : Nat)
    (games : List (Nat × Nat × Nat)) : DB :=
  { db with games := db.games ++ games.map (fun g =>
      { league_id := league_id, season := season, week := g.1,
        game_type := "PRESEASON", home_team_id := g.2.2, away_team_id := g.2.1,
        home_score := 0, away_score := 0, game_status := "SCHEDULED",
        playoff_round := 0, playoff_game_number := 0 }) }

/-- The flat `all_teams` list `generate_schedule` builds from the teams
dict. -/
def preseasonAllTeams (db : DB) (league_id : Nat) : List TeamRow :=
  ((getTeamsByDivision db league_id).map Prod.snd).flatten

/-- The id list of the flat team list. -/
def preseasonTeamIds (db : DB) (league_id : Nat) : List Nat :=
  (preseasonAllTeams db league_id).map (fun t => t.team_id)

/-- `generate_schedule` of `PreseasonGenerator`: returns the success flag
and the store after all commits.  A zero-week configuration returns
success with no games; the `ValueError` raises are caught by the outer
`except` and become a `False` return with no rows written. -/
def generatePreseasonSchedule (db : DB) (league_id season : Nat)
    (orders : Nat → Nat → List Nat) (coins : Nat → Nat → Bool) : Bool × DB :=
  if getPreseasonSettings db league_id = 0 then (true, db)
  else if (preseasonAllTeams db league_id).length < 2 then (false, db)
  else if (preseasonAllTeams db league_id).length % 2 ≠ 0 then (false, db)
  else if ¬ validateSchedulePossible (getTeamsByDivision db league_id)
      (getPreseasonSettings db league_id) then (false, db)
  else
    match generateBalancedWeeklyMatchups (preseasonAllTeams db league_id)
        (getPreseasonSettings db league_id) orders coins with
    | none => (false, db)
    | some weekly =>
      (true, insertPreseasonGames db league_id season (createScheduledGames 1 weekly))

/-! ## Record queries shared by the two seed calculators -/

/-- A game counted as a win for `tid` (the SQL `CASE` of the record
queries). -/
def gameWonBy (g : GameRow) (tid : Nat) : Bool :=
  decide ((g.home_team_id = tid ∧ g.away_score < g.home_score) ∨
    (g.away_team_id = tid ∧ g.home_score < g.away_score))

/-- A game counted as a loss for `tid`. -/
def gameLostBy (g : GameRow) (tid : Nat) : Bool :=
  decide ((g.home_team_id = tid ∧ g.home_score < g.away_score) ∨
    (g.away_team_id = tid ∧ g.away_score < g.home_score))

/-- A game counted as a tie for `tid`. -/
def gameTiedFor (g : GameRow) (tid : Nat) : Bool :=
  decide ((g.home_team_id = tid ∨ g.away_team_id = tid) ∧ g.home_score = g.away_score)

/-- The game involves team `tid`. -/
def involves (g : GameRow) (tid : Nat) : Bool :=
  g.home_team_id == tid || g.away_team_id == tid

/-- Completed games of the league and season (the tie-break record queries
apply no `game_type` filter). -/
def completedOfSeason (db : DB) (league_id season : Nat) : List GameRow :=
  db.games.filter (fun g =>
    g.game_status == "COMPLETED" && g.season == season && g.league_id == league_id)

/-- Completed `REGULAR` games of the league and season (the main standings
query of the seed calculators). -/
def regularCompleted (db : DB) (league_id season : Nat) : List GameRow :=
  db.games.filter (fun g =>
    g.league_id == league_id && g.season == season &&
    g.game_type == "REGULAR" && g.game_status == "COMPLETED")

/-- The opponent of `tid` in game `g` (the SQL `CASE` join condition). -/
def opponentId (g : GameRow) (tid : Nat) : Nat :=
  if g.home_team_id = tid then g.away_team_id else g.home_team_id

/-- The opponent joins to a team row in division `divId` distinct from
`tid`. -/
def oppInDivision (db : DB) (g : GameRow) (tid divId : Nat) : Bool :=
  db.teams.any (fun o =>
    o.team_id == opponentId g tid && o.division_id == divId && o.team_id != tid)

/-- The opponent joins via its division row to conference `confId`. -/
def oppInConference (db : DB) (g : GameRow) (tid confId : Nat) : Bool :=
  db.teams.any (fun o =>
    o.team_id == opponentId g tid && o.team_id != tid &&
    db.divisions.any (fun d =>
      d.division_id == o.division_id && d.conference_id == confId))

/-- `_get_head_to_head_record`: wins/losses against opponents in the
team's own division. -/
def headToHeadRecord (db : DB) (league_id season tid divId : Nat) : Nat × Nat :=
  let gs := (completedOfSeason db league_id season).filter (fun g =>
    involves g tid && oppInDivision db g tid divId)
  (gs.countP (fun g => gameWonBy g tid), gs.countP (fun g => gameLostBy g tid))

/-- `_get_division_record`: identical query to the head-to-head record in
the source. -/
def divisionRecord (db : DB) (league_id season tid divId : Nat) : Nat × Nat :=
  let gs := (completedOfSeason db league_id season).filter (fun g =>
    involves g tid && oppInDivision db g tid divId)
  (gs.countP (fun g => gameWonBy g tid), gs.countP (fun g => gameLostBy g tid))

/-- `_get_conference_record`: wins/losses against opponents whose division
belongs to the conference. -/
def conferenceRecord (db : DB) (league_id season tid confId : Nat) : Nat × Nat :=
  let gs := (completedOfSeason db league_id season).filter (fun g =>
    involves g tid && oppInConference db g tid confId)
  (gs.countP (fun g => gameWonBy g tid), gs.countP (fun g => gameLostBy g tid))

/-- `_get_points_differential`: season points differential over all
completed games. -/
def pointsDifferential (db : DB) (league_id season tid : Nat) : Int :=
  (((completedOfSeason db league_id season).filter (fun g => involves g tid)).map
    (fun g => if g.home_team_id = tid then g.home_score - g.away_score
              else g.away_score - g.home_score)).sum

/-- `_get_points_scored`: season points scored over all completed games. -/
def pointsScored (db : DB) (league_id season tid : Nat) : Int :=
  (((completedOfSeason db league_id season).filter (fun g => involves g tid)).map
    (fun g => if g.home_team_id = tid then g.home_score else g.away_score)).sum

/-! ## Seed calculation in `playoff_generator.py` -/

/-- The per-team stats dict assembled by `_calculate_and_store_seeds`. -/
structure TeamStats where
  team_id : Nat
  division_id : Nat
  wins : Nat
  losses : Nat
  ties : Nat
  win_pct : Frac
  h2h_wins : Nat
  h2h_losses : Nat
  div_wins : Nat
  div_losses : Nat
  conf_wins : Nat
  conf_losses : Nat
  points_diff : Int
  points_for : Int
deriving Repr, DecidableEq, Inhabited

/-- Stats of every active team of the conference (the main query plus the
per-team tie-break queries of `_calculate_and_store_seeds`). -/
def teamStatsFor (db : DB) (league_id season confId : Nat) : List TeamStats :=
  (db.teams.filter (fun t =>
    t.conference_id == confId && t.is_active &&
    db.divisions.any (fun d => d.division_id == t.division_id))).map (fun t =>
    let gs := (regularCompleted db league_id season).filter (fun g => involves g t.team_id)
    let w := gs.countP (fun g => gameWonBy g t.team_id)
    let l := gs.countP (fun g => gameLostBy g t.team_id)
    let ti := gs.countP (fun g => gameTiedFor g t.team_id)
    let h2h := headToHeadRecord db league_id season t.team_id t.division_id
    let dv := divisionRecord db league_id season t.team_id t.division_id
    let cf := conferenceRecord db league_id season t.team_id confId
    { team_id := t.team_id, division_id := t.division_id,
      wins := w, losses := l, ties := ti,
      win_pct := if 0 < w + l + ti then ⟨w, (w + l + ti : Nat)⟩ else ⟨0, 1⟩,
      h2h_wins := h2h.1, h2h_losses := h2h.2,
      div_wins := dv.1, div_losses := dv.2,
      conf_wins := cf.1, conf_losses := cf.2,
      points_diff := pointsDifferential db league_id season t.team_id,
      points_for := pointsScored db league_id season t.team_id })

/-- The sort key of `_sort_teams_with_tiebreakers`: win percentage, then
head-to-head, division and conference percentages, then points
differential and points scored, each descending. -/
def tiebreakerKey (t : TeamStats) : List Frac :=
  [Frac.neg t.win_pct,
   Frac.neg (mkPct t.h2h_wins t.h2h_losses),
   Frac.neg (mkPct t.div_wins t.div_losses),
   Frac.neg (mkPct t.conf_wins t.conf_losses),
   Frac.neg (intFrac t.points_diff),
   Frac.neg (intFrac t.points_for)]

/-- `_sort_teams_with_tiebreakers` of `PlayoffGenerator`. -/
def sortTeamsWithTiebreakers (teams : List TeamStats) : List TeamStats :=
  pySorted (fun a b => fracListLe (tiebreakerKey a) (tiebreakerKey b)) teams

/-- Division ids of a stats list in first-appearance order (the Python
grouping dict's key order). -/
def statDivisionKeys (ts : List TeamStats) : List Nat :=
  ts.foldl (fun acc t => if acc.contains t.division_id then acc else acc ++ [t.division_id]) []

/-- Build the stored `playoff_seeds` row for one seed entry. -/
def mkSeedRow (league_id season confId : Nat) (t : TeamStats) (num : Nat)
    (isWinner : Bool) (ty : String) : SeedRow :=
  { league_id := league_id, season := season, conference_id := confId,
    team_id := t.team_id, seed_number := num, is_division_winner := isWinner,
    division_id := t.division_id, seed_type := ty,
    wins := t.wins, losses := t.losses, ties := t.ties, win_pct := t.win_pct }

/-- `_calculate_and_store_seeds`: division winners first (ranked by
`_sort_teams_with_tiebreakers`), then wildcard candidates ranked by the
same sort; the first `num_playoff_teams` entries are appended to
`playoff_seeds` and returned.  Returns `none` (and writes nothing) when
the conference has no teams. -/
def calculateAndStoreSeeds (db : DB) (league_id season confId numPlayoffTeams : Nat) :
    Option (List SeedRow) × DB :=
  let ts := teamStatsFor db league_id season confId
  if ts.isEmpty then (none, db)
  else
    let winners := sortTeamsWithTiebreakers
      ((statDivisionKeys ts).filterMap (fun d =>
        (sortTeamsWithTiebreakers (ts.filter (fun t => t.division_id == d))).head?))
    let wildcards := sortTeamsWithTiebreakers
      (ts.filter (fun t => !(winners.any (fun w => w.team_id == t.team_id))))
    let numWildcards : Int := (numPlayoffTeams : Int) - (winners.length : Int)
    let wcTake := pySlice wildcards numWildcards
    let seedRows :=
      winners.enum.map (fun p =>
        mkSeedRow league_id season confId p.2 (p.1 + 1) true "Division Winner") ++
      wcTake.enum.map (fun p =>
        mkSeedRow league_id season confId p.2 (winners.length + 1 + p.1) false "Wild Card")
    let stored := seedRows.take numPlayoffTeams
    (some stored, { db with playoff_seeds := db.playoff_seeds ++ stored })

/-! ## Seed calculation in `standings_calculator.py` -/

/-- The per-team stats dict assembled by
`calculate_conference_playoff_seeds` (no head-to-head entry). -/
structure SCStats where
  team_id : Nat
  division_id : Nat
  wins : Nat
  losses : Nat
  ties : Nat
  win_pct : Frac
  div_pct : Frac
  conf_pct : Frac
  points_diff : Int
  points_for : Int
deriving Repr, DecidableEq, Inhabited

/-- Stats of every active team whose division belongs to the conference
(the `calculate_conference_playoff_seeds` queries; its main standings
query has no `game_type` filter). -/
def scTeamStatsFor (db : DB) (league_id season confId : Nat) : List SCStats :=
  (db.teams.filter (fun t =>
    t.is_active && db.divisions.any (fun d =>
      d.division_id == t.division_id && d.conference_id == confId))).map (fun t =>
    let gs := (completedOfSeason db league_id season).filter (fun g => involves g t.team_id)
    let w := gs.countP (fun g => gameWonBy g t.team_id)
    let l := gs.countP (fun g => gameLostBy g t.team_id)
    let ti := gs.countP (fun g => gameTiedFor g t.team_id)
    let dv := divisionRecord db league_id season t.team_id t.division_id
    let cf := conferenceRecord db league_id season t.team_id confId
    { team_id := t.team_id, division_id := t.division_id,
      wins := w, losses := l, ties := ti,
      win_pct := if 0 < w + l + ti then ⟨w, (w + l + ti : Nat)⟩ else ⟨0, 1⟩,
      div_pct := mkPct dv.1 dv.2, conf_pct := mkPct cf.1 cf.2,
      points_diff := pointsDifferential db league_id season t.team_id,
      points_for := pointsScored db league_id season t.team_id })

/-- Division-winner sort key of `calculate_conference_playoff_seeds`:
win percentage, division record, conference record, points. -/
def scDivisionKey (t : SCStats) : List Frac :=
  [Frac.neg t.win_pct, Frac.neg t.div_pct, Frac.neg t.conf_pct,
   Frac.neg (intFrac t.points_diff), Frac.neg (intFrac t.points_for)]

/-- Cross-division (wildcard) sort key of
`calculate_conference_playoff_seeds`: win percentage, conference record,
points — no head-to-head. -/
def scWildcardKey (t : SCStats) : List Frac :=
  [Frac.neg t.win_pct, Frac.neg t.conf_pct,
   Frac.neg (intFrac t.points_diff), Frac.neg (intFrac t.points_for)]

/-- One produced seed entry of `calculate_conference_playoff_seeds`. -/
structure SCSeed where
  seed_number : Nat
  team_id : Nat
  seed_type : String
  is_division_winner : Bool
deriving Repr, DecidableEq, Inhabited

/-- `calculate_conference_playoff_seeds` of `standings_calculator.py`:
division winners by the division key, ranked between each other and the
wildcards by the conference-record key. -/
def calculateConferencePlayoffSeeds (db : DB) (league_id season confId playoffSpots : Nat) :
    List SCSeed :=
  let ts := scTeamStatsFor db league_id season confId
  let divKeys := ts.foldl (fun acc t =>
    if acc.contains t.division_id then acc else acc ++ [t.division_id]) []
  let winners := pySorted (fun a b => fracListLe (scWildcardKey a) (scWildcardKey b))
    (divKeys.filterMap (fun d =>
      (pySorted (fun a b => fracListLe (scDivisionKey a) (scDivisionKey b))
        (ts.filter (fun t => t.division_id == d))).head?))
  let wildcards := pySorted (fun a b => fracListLe (scWildcardKey a) (scWildcardKey b))
    (ts.filter (fun t => !(winners.any (fun w => w.team_id == t.team_id))))
  let numWildcards : Int := (playoffSpots : Int) - (winners.length : Int)
  let wcTake := pySlice wildcards numWildcards
  let seeds :=
    winners.enum.map (fun p =>
      SCSeed.mk (p.1 + 1) p.2.team_id "Division Winner" true) ++
    wcTake.enum.map (fun p =>
      SCSeed.mk (winners.length + 1 + p.1) p.2.team_id "Wild Card" false)
  seeds.take playoffSpots

/-! ## Bracket generation (`playoff_generator.py`) -/

/-- Bye rule shared by `_create_wildcard_matchups` and
`generate_divisional_round`: 7 → 1, 6 → 2, 5 → 1, 4 → 0, otherwise 1 for
odd and 0 for even team counts. -/
def numByes (numTeams : Nat) : Nat :=
  if numTeams = 7 then 1
  else if numTeams = 6 then 2
  else if numTeams = 5 then 1
  else if numTeams = 4 then 0
  else if numTeams % 2 = 1 then 1 else 0

/-- `_create_wildcard_matchups`: drop the bye seeds, pair best against
worst; entry `i` is `(home, away) = (playing[i], playing[-(i+1)])` over
`playing = seeds[num_byes:]` with `len(playing) // 2` games. -/
def createWildcardMatchups [Inhabited α] (seeds : List α) (numTeams : Nat) : List (α × α) :=
  (List.range ((seeds.drop (numByes numTeams)).length / 2)).map (fun i =>
    ((seeds.drop (numByes numTeams)).getD i default,
     (seeds.drop (numByes numTeams)).getD
       ((seeds.drop (numByes numTeams)).length - (i + 1)) default))

/-- `_create_divisional_matchups`: best remaining seed against worst
remaining seed, `len(remaining) // 2` games. -/
def createDivisionalMatchups [Inhabited α] (remaining : List α) : List (α × α) :=
  (List.range (remaining.length / 2)).map (fun i =>
    (remaining.getD i default, remaining.getD (remaining.length - (i + 1)) default))

/-- `_is_regular_season_complete`: no `REGULAR` game of the league and
season has a status other than `COMPLETED`. -/
def isRegularSeasonComplete (db : DB) (league_id season : Nat) : Bool :=
  (db.games.countP (fun g =>
    g.league_id == league_id && g.season == season &&
    g.game_type == "REGULAR" && g.game_status != "COMPLETED")) == 0

/-- `_seeds_exist`: some `playoff_seeds` row exists for the season. -/
def seedsExist (db : DB) (league_id season : Nat) : Bool :=
  decide (0 < db.playoff_seeds.countP (fun s =>
    s.league_id == league_id && s.season == season))

/-- `_clear_playoff_seeds`: delete (and commit) the season's seed rows. -/
def clearPlayoffSeeds (db : DB) (league_id season : Nat) : DB :=
  { db with playoff_seeds := db.playoff_seeds.filter (fun s =>
      !(s.league_id == league_id && s.season == season)) }

/-- `_get_league_config`: the active league row. -/
def getLeagueConfig (db : DB) (league_id : Nat) : Option LeagueRow :=
  db.leagues.find? (fun r => r.league_id == league_id && r.is_active)

/-- `_get_conferences`: active conferences of the league ordered by id. -/
def getConferences (db : DB) (league_id : Nat) : List ConferenceRow :=
  pySorted (fun a b => a.conference_id ≤ b.conference_id)
    (db.conferences.filter (fun c => c.league_id == league_id && c.is_active))

/-- Winner of a game row (`NULL` on a tie), the SQL `CASE` of the
round-winner queries. -/
def winnerTeamId (g : GameRow) : Option Nat :=
  if g.away_score < g.home_score then some g.home_team_id
  else if g.home_score < g.away_score then some g.away_team_id
  else none

/-- The team joins to a `teams` row of the conference. -/
def teamInConference (db : DB) (tid confId : Nat) : Bool :=
  db.teams.any (fun t => t.team_id == tid && t.conference_id == confId)

/-- Seed lookup used by the winner queries (`team_id` plus
`seed_number`). -/
structure SeedInfo where
  team_id : Nat
  seed_number : Nat
deriving Repr, DecidableEq, Inhabited

/-- Seed row of a winner joined with its team row (first matching row, as
`fetchone`). -/
def seedInfoFor (db : DB) (league_id season confId tid : Nat) : Option SeedInfo :=
  (((db.playoff_seeds.filter (fun ps =>
      ps.league_id == league_id && ps.season == season &&
      ps.team_id == tid && ps.conference_id == confId)).filter (fun ps =>
      db.teams.any (fun t => t.team_id == ps.team_id))).head?).map (fun ps =>
    ⟨ps.team_id, ps.seed_number⟩)

/-- Completed playoff games of a given type and week whose two teams both
join to the conference. -/
def playoffGamesOf (db : DB) (league_id season week : Nat) (ty : String) (confId : Nat) :
    List GameRow :=
  db.games.filter (fun g =>
    g.league_id == league_id && g.season == season && g.week == week &&
    g.game_type == ty && teamInConference db g.home_team_id confId &&
    teamInConference db g.away_team_id confId && g.game_status == "COMPLETED")

/-- `_get_wildcard_winners`: winners of the completed Wild Card games with
their seed info. -/
def getWildcardWinners (db : DB) (league_id season confId week : Nat) : List SeedInfo :=
  (playoffGamesOf db league_id season week "WILDCARD" confId).filterMap (fun g =>
    (winnerTeamId g).bind (seedInfoFor db league_id season confId))

/-- `_get_divisional_winners`: winners of the completed Divisional games
with their seed info. -/
def getDivisionalWinners (db : DB) (league_id season confId week : Nat) : List SeedInfo :=
  (playoffGamesOf db league_id season week "DIVISIONAL" confId).filterMap (fun g =>
    (winnerTeamId g).bind (seedInfoFor db league_id season confId))

/-- `_get_conference_champions`: winner of the first completed Conference
Championship game (`fetchone`). -/
def getConferenceChampions (db : DB) (league_id season confId week : Nat) : List SeedInfo :=
  match (playoffGamesOf db league_id season week "CONFERENCE" confId).head? with
  | none => []
  | some g =>
    match (winnerTeamId g).bind (seedInfoFor db league_id season confId) with
    | none => []
    | some si => [si]

/-- `_get_seed_by_number`: the first seed row of the conference with the
given seed number, joined with its team row. -/
def getSeedByNumber (db : DB) (league_id season confId n : Nat) : Option SeedInfo :=
  (((db.playoff_seeds.filter (fun ps =>
      ps.league_id == league_id && ps.season == season &&
      ps.conference_id == confId && ps.seed_number == n)).filter (fun ps =>
      db.teams.any (fun t => t.team_id == ps.team_id))).head?).map (fun ps =>
    ⟨ps.team_id, ps.seed_number⟩)

/-- `_get_playoff_seeds_as_placeholders`: the conference's seed rows in
ascending seed order, limited to `limit`. -/
def getPlayoffSeedsAsPlaceholders (db : DB) (league_id season confId limit : Nat) :
    List SeedInfo :=
  ((pySorted (fun a b : SeedRow => a.seed_number ≤ b.seed_number)
    ((db.playoff_seeds.filter (fun ps =>
      ps.league_id == league_id && ps.season == season &&
      ps.conference_id == confId)).filter (fun ps =>
      db.teams.any (fun t => t.team_id == ps.team_id)))).take limit).map (fun ps =>
    ⟨ps.team_id, ps.seed_number⟩)

/-- A game dict assembled by a round generator ahead of insertion. -/
structure PendingGame where
  week : Nat
  game_type : String
  playoff_round : Nat
  playoff_game_number : Nat
  home_team_id : Nat
  away_team_id : Nat
deriving Repr, DecidableEq, Inhabited

/-- `_insert_playoff_games`: append the rows with status `SCHEDULED`. -/
def insertPlayoffGames (db : DB) (league_id season : Nat) (gs : List PendingGame) : DB :=
  { db with games := db.games ++ gs.map (fun g =>
      { league_id := league_id, season := season, week := g.week,
        game_type := g.game_type, home_team_id := g.home_team_id,
        away_team_id := g.away_team_id, home_score := 0, away_score := 0,
        game_status := "SCHEDULED", playoff_round := g.playoff_round,
        playoff_game_number := g.playoff_game_number }) }

/-- Per-conference body of `generate_wildcard_round`: store each
conference's seeds and collect its Wild Card games, aborting (with the
commits made so far kept) when a conference cannot supply enough seeds. -/
def wildcardConfLoop (league_id season playoffTeams wcWeek : Nat) :
    List ConferenceRow → DB → List PendingGame → Nat → Option (List PendingGame) × DB
  | [], db, acc, _ => (some acc, db)
  | conf :: rest, db, acc, gameNum =>
    match calculateAndStoreSeeds db league_id season conf.conference_id playoffTeams with
    | (none, db1) => (none, db1)
    | (some seeds, db1) =>
      if seeds.isEmpty || seeds.length < playoffTeams then (none, db1)
      else
        let matchups := createWildcardMatchups seeds playoffTeams
        let newGames := matchups.enum.map (fun p =>
          PendingGame.mk wcWeek "WILDCARD" 1 (gameNum + p.1)
            p.2.1.team_id p.2.2.team_id)
        wildcardConfLoop league_id season playoffTeams wcWeek rest db1
          (acc ++ newGames) (gameNum + matchups.length)

/-- `generate_wildcard_round`: regular-season guard, config lookup, seed
clearing, per-conference seed storage and matchup creation, game
insertion. -/
def generateWildcardRound (db : DB) (league_id season : Nat) : Bool × DB :=
  if ¬ isRegularSeasonComplete db league_id season then (false, db)
  else
    match getLeagueConfig db league_id with
    | none => (false, db)
    | some cfg =>
      let db1 := clearPlayoffSeeds db league_id season
      let confs := getConferences db1 league_id
      if confs.isEmpty then (false, db1)
      else
        match wildcardConfLoop league_id season cfg.playoff_teams_per_conf
            (cfg.regular_season_games + 1) confs db1 [] 1 with
        | (none, db2) => (false, db2)
        | (some pendings, db2) => (true, insertPlayoffGames db2 league_id season pendings)

/-- Per-conference body of `generate_divisional_round`: byes from the
locked seeds plus completed Wild Card winners, re-sorted by seed number
and paired best against worst. -/
def divisionalConfPendings (db : DB) (league_id season confId playoffTeams wcWeek divWeek startNum : Nat) :
    List PendingGame :=
  let winners := getWildcardWinners db league_id season confId wcWeek
  let nb := numByes playoffTeams
  let byes := (List.range nb).filterMap (fun i =>
    getSeedByNumber db league_id season confId (i + 1))
  let remaining := pySorted (fun a b : SeedInfo => a.seed_number ≤ b.seed_number)
    (byes ++ winners)
  (createDivisionalMatchups remaining).enum.map (fun p =>
    PendingGame.mk divWeek "DIVISIONAL" 2 (startNum + p.1)
      p.2.1.team_id p.2.2.team_id)

/-- Conference loop of `generate_divisional_round`, threading the game
number. -/
def divisionalConfLoop (db : DB) (league_id season playoffTeams wcWeek divWeek : Nat) :
    List ConferenceRow → Nat → List PendingGame
  | [], _ => []
  | conf :: rest, gameNum =>
    let gs := divisionalConfPendings db league_id season conf.conference_id
      playoffTeams wcWeek divWeek gameNum
    gs ++ divisionalConfLoop db league_id season playoffTeams wcWeek divWeek rest
      (gameNum + gs.length)

/-- `generate_divisional_round`. -/
def generateDivisionalRound (db : DB) (league_id season : Nat) : Bool × DB :=
  if ¬ seedsExist db league_id season then (false, db)
  else
    match getLeagueConfig db league_id with
    | none => (false, db)
    | some cfg =>
      let confs := getConferences db league_id
      if confs.isEmpty then (false, db)
      else
        (true, insertPlayoffGames db league_id season
          (divisionalConfLoop db league_id season cfg.playoff_teams_per_conf
            (cfg.regular_season_games + 1) (cfg.regular_season_games + 2) confs 1))

/-- Per-conference body of `generate_conference_championship`: the two
Divisional winners, or the top two locked seeds as placeholders when the
winners are not both known; the conference is skipped when even two
placeholder seeds are unavailable. -/
def confChampPending (db : DB) (league_id season confId divWeek ccWeek gameNum : Nat) :
    Option PendingGame :=
  let winners := getDivisionalWinners db league_id season confId divWeek
  let chosen : Option (List SeedInfo) :=
    if winners.length ≠ 2 then
      let ph := getPlayoffSeedsAsPlaceholders db league_id season confId 2
      if 2 ≤ ph.length then some (ph.take 2) else none
    else some winners
  match chosen with
  | none => none
  | some ts =>
    match pySorted (fun a b : SeedInfo => a.seed_number ≤ b.seed_number) ts with
    | h :: a :: _ =>
      some (PendingGame.mk ccWeek "CONFERENCE" 3 gameNum h.team_id a.team_id)
    | _ => none

/-- Conference loop of `generate_conference_championship` (the game
number advances only when a game is created). -/
def confChampLoop (db : DB) (league_id season divWeek ccWeek : Nat) :
    List ConferenceRow → Nat → List PendingGame
  | [], _ => []
  | conf :: rest, gameNum =>
    match confChampPending db league_id season conf.conference_id divWeek ccWeek gameNum with
    | none => confChampLoop db league_id season divWeek ccWeek rest gameNum
    | some g => g :: confChampLoop db league_id season divWeek ccWeek rest (gameNum + 1)

/-- `generate_conference_championship`. -/
def generateConferenceChampionship (db : DB) (league_id season : Nat) : Bool × DB :=
  if ¬ seedsExist db league_id season then (false, db)
  else
    match getLeagueConfig db league_id with
    | none => (false, db)
    | some cfg =>
      let confs := getConferences db league_id
      if confs.isEmpty then (false, db)
      else
        (true, insertPlayoffGames db league_id season
          (confChampLoop db league_id season (cfg.regular_season_games + 2)
            (cfg.regular_season_games + 3) confs 1))

/-- `generate_superbowl`: the two conference champions, falling back to
each conference's top locked seed when both champions are not known. -/
def generateSuperbowl (db : DB) (league_id season : Nat) : Bool × DB :=
  match getLeagueConfig db league_id with
  | none => (false, db)
  | some cfg =>
    let confs := getConferences db league_id
    if confs.isEmpty || confs.length != 2 then (false, db)
    else
      let ccWeek := cfg.regular_season_games + 3
      let champs0 := (confs.map (fun c =>
        getConferenceChampions db league_id season c.conference_id ccWeek)).flatten
      let champs := if champs0.length ≠ 2 then
          (confs.map (fun c =>
            getPlayoffSeedsAsPlaceholders db league_id season c.conference_id 1)).flatten
        else champs0
      if champs.length ≠ 2 then (false, db)
      else
        match champs with
        | h :: a :: _ =>
          (true, insertPlayoffGames db league_id season
            [PendingGame.mk (cfg.regular_season_games + 4) "SUPERBOWL" 4 1
              h.team_id a.team_id])
        | _ => (false, db)

/-! ## Concrete database instances used by the claim theorems -/

/-- A completed regular-season game row of league 1, season 1. -/
def mkGame (wk : Nat) (h a : Nat) (hs as : Int) : GameRow :=
  { league_id := 1, season := 1, week := wk, game_type := "REGULAR",
    home_team_id := h, away_team_id := a, home_score := hs, away_score := as,
    game_status := "COMPLETED", playoff_round := 0, playoff_game_number := 0 }

/-- One conference, two divisions of two teams, a completed regular
season.  Teams 2 and 4 are the wildcard candidates: they tie on overall
win percentage (1-3) and on conference record (1-3), team 4 has the
better head-to-head/division record (1-1 against 0-2) while team 2 has
the better points differential (+20 against -20). -/
def dbC1 : DB :=
  { leagues := [⟨1, 8, 4, 0, true⟩],
    conferences := [⟨1, 1, true⟩],
    divisions := [⟨1, 1⟩, ⟨2, 1⟩],
    teams := [⟨1, 1, 1, 1, 1, true⟩, ⟨2, 2, 1, 1, 1, true⟩,
              ⟨3, 3, 1, 1, 2, true⟩, ⟨4, 4, 1, 1, 2, true⟩],
    games := [mkGame 1 1 2 20 10, mkGame 2 1 2 20 10,
              mkGame 1 3 4 20 10, mkGame 2 4 3 20 10,
              mkGame 3 2 3 50 0, mkGame 3 1 4 20 10,
              mkGame 4 1 4 20 10, mkGame 4 3 2 20 10],
    playoff_seeds := [] }

/-- Four locked seeds for a 4-team playoff whose Wild Card games exist but
are still `SCHEDULED`: the prior round is incomplete for the Divisional
round. -/
def dbC2 : DB :=
  { leagues := [⟨1, 8, 4, 0, true⟩],
    conferences := [⟨1, 1, true⟩],
    divisions := [⟨1, 1⟩, ⟨2, 1⟩],
    teams := [⟨1, 1, 1, 1, 1, true⟩, ⟨2, 2, 1, 1, 1, true⟩,
              ⟨3, 3, 1, 1, 2, true⟩, ⟨4, 4, 1, 1, 2, true⟩],
    games := [{ league_id := 1, season := 1, week := 9, game_type := "WILDCARD",
                home_team_id := 1, away_team_id := 4, home_score := 0, away_score := 0,
                game_status := "SCHEDULED", playoff_round := 1, playoff_game_number := 1 },
              { league_id := 1, season := 1, week := 9, game_type := "WILDCARD",
                home_team_id := 2, away_team_id := 3, home_score := 0, away_score := 0,
                game_status := "SCHEDULED", playoff_round := 1, playoff_game_number := 2 }],
    playoff_seeds := [⟨1, 1, 1, 1, 1, true, 1, "Division Winner", 4, 0, 0, ⟨1, 1⟩⟩,
                      ⟨1, 1, 1, 3, 2, true, 2, "Division Winner", 2, 2, 0, ⟨1, 2⟩⟩,
                      ⟨1, 1, 1, 4, 3, false, 2, "Wild Card", 1, 3, 0, ⟨1, 4⟩⟩,
                      ⟨1, 1, 1, 2, 4, false, 1, "Wild Card", 1, 3, 0, ⟨1, 4⟩⟩] }

/-- A store with one regular-season game still `SCHEDULED`. -/
def dbC5 : DB :=
  { leagues := [⟨1, 8, 4, 0, true⟩],
    conferences := [⟨1, 1, true⟩],
    divisions := [⟨1, 1⟩],
    teams := [⟨1, 1, 1, 1, 1, true⟩, ⟨2, 2, 1, 1, 1, true⟩],
    games := [{ league_id := 1, season := 1, week := 1, game_type := "REGULAR",
                home_team_id := 1, away_team_id := 2, home_score := 0, away_score := 0,
                game_status := "SCHEDULED", playoff_round := 0, playoff_game_number := 0 },
              mkGame 2 2 1 14 7],
    playoff_seeds := [⟨1, 1, 1, 2, 1, true, 1, "Division Winner", 1, 0, 0, ⟨1, 1⟩⟩] }

/-- A complete (empty) regular season, an active conference with no teams,
and a pre-existing seed row from an earlier run: Wild Card generation
fails after its regular-season check. -/
def dbC6 : DB :=
  { leagues := [⟨1, 8, 2, 0, true⟩],
    conferences := [⟨1, 1, true⟩],
    divisions := [],
    teams := [],
    games := [],
    playoff_seeds := [⟨1, 1, 1, 9, 1, true, 1, "Division Winner", 0, 0, 0, ⟨0, 1⟩⟩] }

/-- Eight teams in four divisions of two, two preseason weeks. -/
def db4 : DB :=
  { leagues := [⟨1, 0, 0, 2, true⟩],
    conferences := [⟨1, 1, true⟩, ⟨2, 1, true⟩],
    divisions := [⟨1, 1⟩, ⟨2, 1⟩, ⟨3, 2⟩, ⟨4, 2⟩],
    teams := [⟨1, 1, 1, 1, 1, true⟩, ⟨2, 2, 1, 1, 1, true⟩,
              ⟨3, 3, 1, 1, 2, true⟩, ⟨4, 4, 1, 1, 2, true⟩,
              ⟨5, 5, 1, 2, 3, true⟩, ⟨6, 6, 1, 2, 3, true⟩,
              ⟨7, 7, 1, 2, 4, true⟩, ⟨8, 8, 1, 2, 4, true⟩],
    games := [], playoff_seeds := [] }

/-- Shuffle oracle for `db4`: one ordering for week 1, another for
week 2 (every value is a permutation of the eight team ids). -/
def orders4 : Nat → Nat → List Nat := fun w _ =>
  if w ≤ 1 then [1, 3, 2, 4, 5, 7, 6, 8] else [3, 7, 4, 8, 1, 5, 2, 6]

/-- Coin oracle for `db4` (never consulted on this run). -/
def coins4 : Nat → Nat → Bool := fun _ _ => true

/-- Six teams in two divisions of three with five preseason weeks
requested: only three non-division opponents exist. -/
def dbC8 : DB :=
  { leagues := [⟨1, 0, 0, 5, true⟩],
    conferences := [⟨1, 1, true⟩],
    divisions := [⟨1, 1⟩, ⟨2, 1⟩],
    teams := [⟨1, 1, 1, 1, 1, true⟩, ⟨2, 2, 1, 1, 1, true⟩,
              ⟨3, 3, 1, 1, 1, true⟩, ⟨4, 4, 1, 1, 2, true⟩,
              ⟨5, 5, 1, 1, 2, true⟩, ⟨6, 6, 1, 1, 2, true⟩],
    games := [], playoff_seeds := [] }

/-- Two conferences with one seeded team each and no completed conference
championship games: Super Bowl generation must fall back to
placeholders. -/
def dbSB : DB :=
  { leagues := [⟨1, 8, 1, 0, true⟩],
    conferences := [⟨1, 1, true⟩, ⟨2, 1, true⟩],
    divisions := [⟨1, 1⟩, ⟨2, 2⟩],
    teams := [⟨1, 1, 1, 1, 1, true⟩, ⟨2, 2, 1, 2, 2, true⟩],
    games := [],
    playoff_seeds := [⟨1, 1, 1, 1, 1, true, 1, "Division Winner", 4, 0, 0, ⟨1, 1⟩⟩,
                      ⟨1, 1, 2, 2, 1, true, 2, "Division Winner", 3, 1, 0, ⟨3, 4⟩⟩] }

/-! ## Claim theorems -/

/-- C5: when some regular-season game of the league and season has a
status other than `COMPLETED`, `generate_wildcard_round` returns failure
and leaves the store untouched — in particular no seed row is cleared or
written and no game row is inserted. -/
theorem wildcard_requires_complete_regular_season (db : DB) (league_id season : Nat)
    (h : ∃ g ∈ db.games, g.league_id = league_id ∧ g.season = season ∧
      g.game_type = "REGULAR" ∧ g.game_status ≠ "COMPLETED") :
    generateWildcardRound db league_id season = (false, db) := by
  have hfalse : isRegularSeasonComplete db league_id season = false := by
    obtain ⟨g, hgmem, h1, h2, h3, h4⟩ := h
    have hpos : 0 < db.games.countP (fun g =>
        g.league_id == league_id && g.season == season &&
        g.game_type == "REGULAR" && g.game_status != "COMPLETED") := by
      rw [List.countP_pos_iff]
      exact ⟨g, hgmem, by simp [h1, h2, h3, h4]⟩
    unfold isRegularSeasonComplete
    rw [beq_eq_false_iff_ne]
    omega
  unfold generateWildcardRound
  simp [hfalse]

/-- C5 witness: a concrete store with an unfinished regular-season game. -/
theorem wildcard_requires_complete_regular_season_witness :
    generateWildcardRound dbC5 1 1 = (false, dbC5) :=
  wildcard_requires_complete_regular_season dbC5 1 1
    ⟨dbC5.games.headI, by decide, by decide⟩

/-- C1 evidence: on `dbC1` the seed calculation that locks the
`playoff_seeds` table (`_calculate_and_store_seeds`, reached through
`generate_wildcard_round`) ranks wildcard team 4 above wildcard team 2 —
they tie on win percentage and conference record, so the decision is made
by the head-to-head/division component of `_sort_teams_with_tiebreakers` —
whereas the cross-division rule of
`calculate_conference_playoff_seeds` (win pct, conference pct, points
differential, points scored) ranks team 2 above team 4 on its +20 points
differential. -/
theorem wildcard_seed_order_uses_head_to_head :
    ((calculateAndStoreSeeds dbC1 1 1 1 4).1.map (fun rows =>
      rows.map (fun r => (r.seed_number, r.team_id)))) =
      some [(1, 1), (2, 3), (3, 4), (4, 2)] ∧
    ((generateWildcardRound dbC1 1 1).2.playoff_seeds.map (fun r =>
      (r.seed_number, r.team_id))) = [(1, 1), (2, 3), (3, 4), (4, 2)] ∧
    ((calculateConferencePlayoffSeeds dbC1 1 1 1 4).map (fun r =>
      (r.seed_number, r.team_id))) = [(1, 1), (2, 3), (3, 2), (4, 4)] ∧
    ((teamStatsFor dbC1 1 1 1).map (fun t =>
      (t.team_id, t.win_pct, mkPct t.conf_wins t.conf_losses,
       mkPct t.h2h_wins t.h2h_losses, t.points_diff))) =
      [(1, ⟨4, 4⟩, ⟨4, 4⟩, ⟨2, 2⟩, 40),
       (2, ⟨1, 4⟩, ⟨1, 4⟩, ⟨0, 2⟩, 20),
       (3, ⟨2, 4⟩, ⟨2, 4⟩, ⟨1, 2⟩, -40),
       (4, ⟨1, 4⟩, ⟨1, 4⟩, ⟨1, 2⟩, -20)] := by
  refine ⟨by decide, by decide, by decide, by decide⟩

/-- C2 counterexample: on `dbC2` the Wild Card games exist but none is
completed, four locked seeds are available as placeholders, yet
`generate_divisional_round` reports success and inserts zero games rather
than scaffolding the round from placeholder seeds. -/
theorem divisional_round_no_placeholder_fallback :
    (generateDivisionalRound dbC2 1 1).1 = true ∧
    (generateDivisionalRound dbC2 1 1).2.games.length = dbC2.games.length ∧
    (getWildcardWinners dbC2 1 1 1 9).length = 0 ∧
    dbC2.playoff_seeds.length = 4 := by
  refine ⟨by decide, by decide, by decide, by decide⟩

/-- C6 counterexample: on `dbC6` the regular season is complete and the
league configuration loads, the run fails on a later precondition
(a conference that cannot supply seeds), yet the store is modified: the
pre-existing seed row has been deleted. -/
theorem wildcard_failure_clears_existing_seeds :
    (generateWildcardRound dbC6 1 1).1 = false ∧
    isRegularSeasonComplete dbC6 1 1 = true ∧
    (generateWildcardRound dbC6 1 1).2.playoff_seeds = [] ∧
    dbC6.playoff_seeds ≠ [] := by
  refine ⟨by decide, by decide, by decide, by decide⟩

/-- C4 evidence: a successful two-week run of `generate_schedule` on
eight teams (the schedule it inserts is reported as a success) in which
teams 7 and 8 end with zero home games and teams 5 and 6 with zero away
games; the balance step only prints a warning. -/
theorem preseason_success_without_home_away_balance :
    (generatePreseasonSchedule db4 1 1 orders4 coins4).1 = true ∧
    getPreseasonSettings db4 1 = 2 ∧
    ((generatePreseasonSchedule db4 1 1 orders4 coins4).2.games.drop
      db4.games.length).length = 8 ∧
    ((generatePreseasonSchedule db4 1 1 orders4 coins4).2.games.drop
      db4.games.length).countP (fun g => g.home_team_id == 7) = 0 ∧
    ((generatePreseasonSchedule db4 1 1 orders4 coins4).2.games.drop
      db4.games.length).countP (fun g => g.away_team_id == 5) = 0 := by
  refine ⟨by decide, by decide, by decide, by decide, by decide⟩

/-- C8: when some division leaves fewer non-division opponents than the
requested number of preseason weeks, `generate_schedule` fails before any
matchup search and the store is untouched. -/
theorem preseason_impossible_schedule_fails_fast (db : DB) (league_id season : Nat)
    (orders : Nat → Nat → List Nat) (coins : Nat → Nat → Bool)
    (hW : getPreseasonSettings db league_id ≠ 0)
    (hbad : ∃ grp ∈ getTeamsByDivision db league_id,
      ((getTeamsByDivision db league_id).map Prod.snd).flatten.length - grp.2.length <
        getPreseasonSettings db league_id) :
    generatePreseasonSchedule db league_id season orders coins = (false, db) := by
  have hval : validateSchedulePossible (getTeamsByDivision db league_id)
      (getPreseasonSettings db league_id) = false := by
    obtain ⟨grp, hmem, hlt⟩ := hbad
    unfold validateSchedulePossible
    rw [List.all_eq_false]
    refine ⟨grp, hmem, ?_⟩
    rw [decide_eq_true hlt]
    decide
  unfold generatePreseasonSchedule
  rw [if_neg hW]
  simp [hval]

/-- C3: on a seed list numbered `1..N`, the bye rule is `0, 1, 2, 1` for
`N = 4, 5, 6, 7` (`1` for any other odd `N`, `0` for any other even `N`),
Wild Card construction drops the top `numByes` seeds and produces exactly
`(N - numByes) / 2` games, and game `i` pairs remaining seed
`numByes + i + 1` at home against seed `N - i` away, so the home team of
every game is the better (lower-numbered) seed. -/
theorem wildcard_matchup_structure (N i : Nat) (seeds : List SeedInfo)
    (hlen : seeds.length = N)
    (hseed : ∀ j, j < N → (seeds.getD j default).seed_number = j + 1)
    (hi : i < (N - numByes N) / 2) :
    (numByes 4 = 0 ∧ numByes 5 = 1 ∧ numByes 6 = 2 ∧ numByes 7 = 1) ∧
    (∀ M, M % 2 = 1 → numByes M = 1) ∧
    (∀ M, M % 2 = 0 → M ≠ 6 → numByes M = 0) ∧
    (createWildcardMatchups seeds N).length = (N - numByes N) / 2 ∧
    ((createWildcardMatchups seeds N).getD i default).1.seed_number = numByes N + i + 1 ∧
    ((createWildcardMatchups seeds N).getD i default).2.seed_number = N - i ∧
    ((createWildcardMatchups seeds N).getD i default).1.seed_number <
      ((createWildcardMatchups seeds N).getD i default).2.seed_number := by
  have hplen : (seeds.drop (numByes N)).length = N - numByes N := by
    rw [List.length_drop, hlen]
  have hlenM : (createWildcardMatchups seeds N).length = (N - numByes N) / 2 := by
    unfold createWildcardMatchups
    rw [List.length_map, List.length_range, hplen]
  have hElem : (createWildcardMatchups seeds N).getD i default =
      ((seeds.drop (numByes N)).getD i default,
       (seeds.drop (numByes N)).getD ((seeds.drop (numByes N)).length - (i + 1)) default) := by
    unfold createWildcardMatchups
    rw [List.getD_eq_getElem _ _ (by rw [List.length_map, List.length_range, hplen]; exact hi)]
    rw [List.getElem_map, List.getElem_range]
  have hi1 : i < (seeds.drop (numByes N)).length := by
    rw [hplen]; omega
  have hhome : ((seeds.drop (numByes N)).getD i default).seed_number = numByes N + i + 1 := by
    rw [List.getD_eq_getElem _ _ hi1, List.getElem_drop]
    have hb : numByes N + i < seeds.length := by rw [hlen]; omega
    have hs := hseed (numByes N + i) (by omega)
    rw [List.getD_eq_getElem _ _ hb] at hs
    exact hs
  have hj1 : (seeds.drop (numByes N)).length - (i + 1) < (seeds.drop (numByes N)).length := by
    rw [hplen]; omega
  have haway : ((seeds.drop (numByes N)).getD
      ((seeds.drop (numByes N)).length - (i + 1)) default).seed_number = N - i := by
    rw [hplen]
    have hj2 : N - numByes N - (i + 1) < (seeds.drop (numByes N)).length := by
      rw [hplen]; omega
    rw [List.getD_eq_getElem _ _ hj2, List.getElem_drop]
    have hb : numByes N + (N - numByes N - (i + 1)) < seeds.length := by rw [hlen]; omega
    have hs := hseed (numByes N + (N - numByes N - (i + 1))) (by omega)
    rw [List.getD_eq_getElem _ _ hb] at hs
    rw [hs]
    omega
  refine ⟨by decide, ?_, ?_, hlenM, ?_, ?_, ?_⟩
  · intro M hM
    unfold numByes
    split_ifs <;> omega
  · intro M hM h6
    unfold numByes
    split_ifs <;> omega
  · rw [hElem]; exact hhome
  · rw [hElem]; exact haway
  · rw [hElem]
    simp only [hhome, haway]
    omega

/-- Seed list `1..7` used to instantiate the Wild Card structure
theorem. -/
def seedsW : List SeedInfo :=
  [⟨11, 1⟩, ⟨12, 2⟩, ⟨13, 3⟩, ⟨14, 4⟩, ⟨15, 5⟩, ⟨16, 6⟩, ⟨17, 7⟩]

/-- C3 witness: the structure theorem instantiated at a 7-team seed list
and game 0. -/
theorem wildcard_matchup_structure_witness :
    (numByes 4 = 0 ∧ numByes 5 = 1 ∧ numByes 6 = 2 ∧ numByes 7 = 1) ∧
    (∀ M, M % 2 = 1 → numByes M = 1) ∧
    (∀ M, M % 2 = 0 → M ≠ 6 → numByes M = 0) ∧
    (createWildcardMatchups seedsW 7).length = (7 - numByes 7) / 2 ∧
    ((createWildcardMatchups seedsW 7).getD 0 default).1.seed_number = numByes 7 + 0 + 1 ∧
    ((createWildcardMatchups seedsW 7).getD 0 default).2.seed_number = 7 - 0 ∧
    ((createWildcardMatchups seedsW 7).getD 0 default).1.seed_number <
      ((createWildcardMatchups seedsW 7).getD 0 default).2.seed_number :=
  wildcard_matchup_structure 7 0 seedsW (by decide) (by decide) (by decide)

/-! ### Store-effect lemmas for the round generators -/

/-- Inserting playoff games leaves the seed table unchanged. -/
theorem insertPlayoffGames_seeds (db : DB) (league_id season : Nat) (gs : List PendingGame) :
    (insertPlayoffGames db league_id season gs).playoff_seeds = db.playoff_seeds := rfl

/-- Clearing seeds leaves the games table unchanged. -/
theorem clearPlayoffSeeds_games (db : DB) (league_id season : Nat) :
    (clearPlayoffSeeds db league_id season).games = db.games := rfl

/-- Seed calculation never touches the games table. -/
theorem calculateAndStoreSeeds_games (db : DB) (league_id season confId n : Nat) :
    (calculateAndStoreSeeds db league_id season confId n).2.games = db.games := by
  simp only [calculateAndStoreSeeds]
  split <;> rfl

/-- Seed calculation only appends to the seed table. -/
theorem calculateAndStoreSeeds_seeds (db : DB) (league_id season confId n : Nat) :
    ∃ st, (calculateAndStoreSeeds db league_id season confId n).2.playoff_seeds =
      db.playoff_seeds ++ st := by
  simp only [calculateAndStoreSeeds]
  split
  · exact ⟨[], by simp⟩
  · exact ⟨_, rfl⟩

/-- Invariants of the Wild Card conference loop: the games table is never
touched, the seed table only grows, and every produced pending game
carries the Wild Card week and round 1. -/
theorem wildcardConfLoop_spec (league_id season pt w : Nat) :
    ∀ (confs : List ConferenceRow) (db : DB) (acc : List PendingGame) (n : Nat),
      (wildcardConfLoop league_id season pt w confs db acc n).2.games = db.games ∧
      (∃ st, (wildcardConfLoop league_id season pt w confs db acc n).2.playoff_seeds =
        db.playoff_seeds ++ st) ∧
      (∀ out, (wildcardConfLoop league_id season pt w confs db acc n).1 = some out →
        (∀ g ∈ acc, g.week = w ∧ g.playoff_round = 1) →
        ∀ g ∈ out, g.week = w ∧ g.playoff_round = 1) := by
  intro confs
  induction confs with
  | nil =>
    intro db acc n
    refine ⟨rfl, ⟨[], by simp [wildcardConfLoop]⟩, ?_⟩
    intro out hout hacc
    simp only [wildcardConfLoop, Option.some.injEq] at hout
    subst hout
    exact hacc
  | cons conf rest ih =>
    intro db acc n
    simp only [wildcardConfLoop]
    rcases hcs : calculateAndStoreSeeds db league_id season conf.conference_id pt with
      ⟨seedsOpt, db1⟩
    have hg1 : db1.games = db.games := by
      have := calculateAndStoreSeeds_games db league_id season conf.conference_id pt
      rw [hcs] at this
      exact this
    have hs1 : ∃ st, db1.playoff_seeds = db.playoff_seeds ++ st := by
      have := calculateAndStoreSeeds_seeds db league_id season conf.conference_id pt
      rw [hcs] at this
      exact this
    cases seedsOpt with
    | none =>
      refine ⟨hg1, hs1, ?_⟩
      intro out hout
      simp at hout
    | some seeds =>
      simp only []
      split
      · refine ⟨hg1, hs1, ?_⟩
        intro out hout
        simp at hout
      · obtain ⟨hgR, ⟨st1, hsR⟩, hpR⟩ := ih db1
          (acc ++ (createWildcardMatchups seeds pt).enum.map (fun p =>
            PendingGame.mk w "WILDCARD" 1 (n + p.1) p.2.1.team_id p.2.2.team_id))
          (n + (createWildcardMatchups seeds pt).length)
        obtain ⟨st0, hs0⟩ := hs1
        refine ⟨by rw [hgR, hg1], ⟨st0 ++ st1, by rw [hsR, hs0, List.append_assoc]⟩, ?_⟩
        intro out hout hacc
        refine hpR out hout ?_
        intro g hg
        rcases List.mem_append.mp hg with hga | hgn
        · exact hacc g hga
        · obtain ⟨p, _, hpe⟩ := List.mem_map.mp hgn
          rw [← hpe]
          exact ⟨rfl, rfl⟩

/-- Every pending game of the Divisional conference loop carries the
Divisional week and round 2. -/
theorem divisionalConfLoop_week (db : DB) (league_id season pt wcW divW : Nat) :
    ∀ (confs : List ConferenceRow) (n : Nat),
      ∀ g ∈ divisionalConfLoop db league_id season pt wcW divW confs n,
        g.week = divW ∧ g.playoff_round = 2 := by
  intro confs
  induction confs with
  | nil => intro n g hg; simp [divisionalConfLoop] at hg
  | cons conf rest ih =>
    intro n g hg
    simp only [divisionalConfLoop] at hg
    rcases List.mem_append.mp hg with hgn | hgr
    · obtain ⟨p, _, hpe⟩ := List.mem_map.mp hgn
      rw [← hpe]
      exact ⟨rfl, rfl⟩
    · exact ih _ g hgr

/-- A game produced by `confChampPending` carries the championship week
and round 3. -/
theorem confChampPending_week (db : DB) (league_id season confId divW ccW n : Nat)
    (g : PendingGame) (h : confChampPending db league_id season confId divW ccW n = some g) :
    g.week = ccW ∧ g.playoff_round = 3 := by
  simp only [confChampPending] at h
  repeat' split at h
  all_goals first
    | (cases h; exact ⟨rfl, rfl⟩)
    | simp at h

/-- Every pending game of the championship conference loop carries the
championship week and round 3. -/
theorem confChampLoop_week (db : DB) (league_id season divW ccW : Nat) :
    ∀ (confs : List ConferenceRow) (n : Nat),
      ∀ g ∈ confChampLoop db league_id season divW ccW confs n,
        g.week = ccW ∧ g.playoff_round = 3 := by
  intro confs
  induction confs with
  | nil => intro n g hg; simp [confChampLoop] at hg
  | cons conf rest ih =>
    intro n g hg
    simp only [confChampLoop] at hg
    rcases hcc : confChampPending db league_id season conf.conference_id divW ccW n with _ | g0
    · rw [hcc] at hg
      exact ih _ g hg
    · rw [hcc] at hg
      rcases List.mem_cons.mp hg with hge | hgr
      · subst hge
        exact confChampPending_week db league_id season conf.conference_id divW ccW n g hcc
      · exact ih _ g hgr

/-- Membership in the rows appended by `_insert_playoff_games` over an
unchanged games table. -/
theorem mem_insertPlayoffGames_drop (db0 db1 : DB) (league_id season : Nat)
    (gs : List PendingGame) (hgames : db1.games = db0.games) (g : GameRow)
    (hg : g ∈ (insertPlayoffGames db1 league_id season gs).games.drop db0.games.length) :
    ∃ p ∈ gs, g =
      { league_id := league_id, season := season, week := p.week, game_type := p.game_type,
        home_team_id := p.home_team_id, away_team_id := p.away_team_id, home_score := 0,
        away_score := 0, game_status := "SCHEDULED", playoff_round := p.playoff_round,
        playoff_game_number := p.playoff_game_number } := by
  unfold insertPlayoffGames at hg
  simp only [hgames] at hg
  rw [List.drop_left] at hg
  obtain ⟨p, hp, hpe⟩ := List.mem_map.mp hg
  exact ⟨p, hp, hpe.symm⟩

/-- C9: the Divisional, Conference Championship and Super Bowl generators
leave the locked `playoff_seeds` rows of the store untouched — they only
read seeds and insert games. -/
theorem later_rounds_preserve_locked_seeds (db : DB) (league_id season : Nat) :
    (generateDivisionalRound db league_id season).2.playoff_seeds = db.playoff_seeds ∧
    (generateConferenceChampionship db league_id season).2.playoff_seeds = db.playoff_seeds ∧
    (generateSuperbowl db league_id season).2.playoff_seeds = db.playoff_seeds := by
  refine ⟨?_, ?_, ?_⟩
  · simp only [generateDivisionalRound]
    repeat' split
    all_goals rfl
  · simp only [generateConferenceChampionship]
    repeat' split
    all_goals rfl
  · simp only [generateSuperbowl]
    repeat' split
    all_goals rfl

/-- C10: every game inserted by a round generator carries
`week = regular_season_games + r`, `playoff_round = r` and status
`SCHEDULED`, with `r = 1, 2, 3, 4` for the Wild Card, Divisional,
Conference Championship and Super Bowl generators respectively. -/
theorem playoff_rounds_week_round_status (db : DB) (league_id season : Nat)
    (cfg : LeagueRow) (hcfg : getLeagueConfig db league_id = some cfg) :
    (∀ g ∈ (generateWildcardRound db league_id season).2.games.drop db.games.length,
      g.week = cfg.regular_season_games + 1 ∧ g.playoff_round = 1 ∧
      g.game_status = "SCHEDULED") ∧
    (∀ g ∈ (generateDivisionalRound db league_id season).2.games.drop db.games.length,
      g.week = cfg.regular_season_games + 2 ∧ g.playoff_round = 2 ∧
      g.game_status = "SCHEDULED") ∧
    (∀ g ∈ (generateConferenceChampionship db league_id season).2.games.drop db.games.length,
      g.week = cfg.regular_season_games + 3 ∧ g.playoff_round = 3 ∧
      g.game_status = "SCHEDULED") ∧
    (∀ g ∈ (generateSuperbowl db league_id season).2.games.drop db.games.length,
      g.week = cfg.regular_season_games + 4 ∧ g.playoff_round = 4 ∧
      g.game_status = "SCHEDULED") := by
  refine ⟨?_, ?_, ?_, ?_⟩
  · intro g hg
    simp only [generateWildcardRound, hcfg] at hg
    split at hg
    · simp [List.drop_length] at hg
    · split at hg
      · rw [clearPlayoffSeeds_games, List.drop_length] at hg
        simp at hg
      · rcases hloop : wildcardConfLoop league_id season cfg.playoff_teams_per_conf
            (cfg.regular_season_games + 1)
            (getConferences (clearPlayoffSeeds db league_id season) league_id)
            (clearPlayoffSeeds db league_id season) [] 1 with ⟨res, db2⟩
        obtain ⟨hgL, _, hpL⟩ := wildcardConfLoop_spec league_id season
          cfg.playoff_teams_per_conf (cfg.regular_season_games + 1)
          (getConferences (clearPlayoffSeeds db league_id season) league_id)
          (clearPlayoffSeeds db league_id season) [] 1
        rw [hloop] at hgL hpL hg
        cases res with
        | none =>
          rw [show db2.games = db.games from hgL, List.drop_length] at hg
          simp at hg
        | some pendings =>
          obtain ⟨p, hp, hpe⟩ := mem_insertPlayoffGames_drop db db2 league_id season
            pendings (by rw [show db2.games = db.games from hgL]) g hg
          obtain ⟨hw, hr⟩ := hpL pendings rfl (by intro g hgq; simp at hgq) p hp
          rw [hpe]
          exact ⟨hw, hr, rfl⟩
  · intro g hg
    simp only [generateDivisionalRound, hcfg] at hg
    split at hg
    · simp [List.drop_length] at hg
    · split at hg
      · simp [List.drop_length] at hg
      · obtain ⟨p, hp, hpe⟩ := mem_insertPlayoffGames_drop db db league_id season
          _ rfl g hg
        obtain ⟨hw, hr⟩ := divisionalConfLoop_week db league_id season
          cfg.playoff_teams_per_conf (cfg.regular_season_games + 1)
          (cfg.regular_season_games + 2) _ 1 p hp
        rw [hpe]
        exact ⟨hw, hr, rfl⟩
  · intro g hg
    simp only [generateConferenceChampionship, hcfg] at hg
    split at hg
    · simp [List.drop_length] at hg
    · split at hg
      · simp [List.drop_length] at hg
      · obtain ⟨p, hp, hpe⟩ := mem_insertPlayoffGames_drop db db league_id season
          _ rfl g hg
        obtain ⟨hw, hr⟩ := confChampLoop_week db league_id season
          (cfg.regular_season_games + 2) (cfg.regular_season_games + 3) _ 1 p hp
        rw [hpe]
        exact ⟨hw, hr, rfl⟩
  · intro g hg
    simp only [generateSuperbowl, hcfg] at hg
    repeat' split at hg
    all_goals first
      | (obtain ⟨p, hp, hpe⟩ := mem_insertPlayoffGames_drop db db league_id season
           _ rfl g hg
         simp only [List.mem_singleton] at hp
         rw [hpe, hp]
         exact ⟨rfl, rfl, rfl⟩)
      | (simp [List.drop_length] at hg)

/-- C10 witness: the round/week/status facts instantiated at the concrete
store `dbC2` and its league configuration. -/
theorem playoff_rounds_week_round_status_witness :
    (∀ g ∈ (generateWildcardRound dbC2 1 1).2.games.drop dbC2.games.length,
      g.week = 9 ∧ g.playoff_round = 1 ∧ g.game_status = "SCHEDULED") ∧
    (∀ g ∈ (generateDivisionalRound dbC2 1 1).2.games.drop dbC2.games.length,
      g.week = 10 ∧ g.playoff_round = 2 ∧ g.game_status = "SCHEDULED") ∧
    (∀ g ∈ (generateConferenceChampionship dbC2 1 1).2.games.drop dbC2.games.length,
      g.week = 11 ∧ g.playoff_round = 3 ∧ g.game_status = "SCHEDULED") ∧
    (∀ g ∈ (generateSuperbowl dbC2 1 1).2.games.drop dbC2.games.length,
      g.week = 12 ∧ g.playoff_round = 4 ∧ g.game_status = "SCHEDULED") :=
  playoff_rounds_week_round_status dbC2 1 1 ⟨1, 8, 4, 0, true⟩ (by decide)

/-- C6 (amended): when `generate_wildcard_round` fails after the
regular-season check and config lookup, no game row is inserted, but the
seed table has been modified: the pre-existing seeds of the
(league, season) are deleted, with only the seed rows stored for
conferences processed before the failure (possibly none) appended. -/
theorem wildcard_postcheck_failure_effects (db : DB) (league_id season : Nat)
    (cfg : LeagueRow)
    (hcomplete : isRegularSeasonComplete db league_id season = true)
    (hcfg : getLeagueConfig db league_id = some cfg)
    (hfail : (generateWildcardRound db league_id season).1 = false) :
    (generateWildcardRound db league_id season).2.games = db.games ∧
    ∃ st, (generateWildcardRound db league_id season).2.playoff_seeds =
      db.playoff_seeds.filter (fun s =>
        !(s.league_id == league_id && s.season == season)) ++ st := by
  simp only [generateWildcardRound, hcomplete, hcfg, not_true, if_false, Bool.not_eq_true] at hfail ⊢
  by_cases hconf :
      (getConferences (clearPlayoffSeeds db league_id season) league_id).isEmpty = true
  · rw [if_pos hconf]
    exact ⟨rfl, ⟨[], by rw [List.append_nil]; rfl⟩⟩
  · rw [if_neg hconf] at hfail ⊢
    rcases hloop : wildcardConfLoop league_id season cfg.playoff_teams_per_conf
        (cfg.regular_season_games + 1)
        (getConferences (clearPlayoffSeeds db league_id season) league_id)
        (clearPlayoffSeeds db league_id season) [] 1 with ⟨res, db2⟩
    obtain ⟨hgL, hsL, _⟩ := wildcardConfLoop_spec league_id season
      cfg.playoff_teams_per_conf (cfg.regular_season_games + 1)
      (getConferences (clearPlayoffSeeds db league_id season) league_id)
      (clearPlayoffSeeds db league_id season) [] 1
    rw [hloop] at hgL hsL hfail
    cases res with
    | none => exact ⟨hgL, hsL⟩
    | some pendings => exact Bool.noConfusion hfail

/-- C6 (amended) witness: instantiated at `dbC6`, whose regular season is
trivially complete and whose only conference has no teams. -/
theorem wildcard_postcheck_failure_effects_witness :
    (generateWildcardRound dbC6 1 1).2.games = dbC6.games ∧
    ∃ st, (generateWildcardRound dbC6 1 1).2.playoff_seeds =
      dbC6.playoff_seeds.filter (fun s => !(s.league_id == 1 && s.season == 1)) ++ st :=
  wildcard_postcheck_failure_effects dbC6 1 1 ⟨1, 8, 2, 0, true⟩
    (by decide) (by decide) (by decide)

/-- C2 (amended): once the seed, config and conference preconditions
pass, Divisional generation succeeds regardless of how few Wild Card
winners are known (it substitutes no placeholders); the Conference
Championship substitutes the conference's top two locked seeds (ascending)
when the two Divisional winners are not known, and the Super Bowl
substitutes each conference's top locked seed when the two champions are
not known. -/
theorem later_round_placeholder_policy :
    (∀ (db : DB) (league_id season : Nat) (cfg : LeagueRow),
      seedsExist db league_id season = true →
      getLeagueConfig db league_id = some cfg →
      (getConferences db league_id).isEmpty = false →
      (generateDivisionalRound db league_id season).1 = true) ∧
    (∀ (db : DB) (league_id season confId divW ccW n : Nat) (p1 p2 : SeedInfo),
      (getDivisionalWinners db league_id season confId divW).length ≠ 2 →
      getPlayoffSeedsAsPlaceholders db league_id season confId 2 = [p1, p2] →
      p1.seed_number ≤ p2.seed_number →
      confChampPending db league_id season confId divW ccW n =
        some (PendingGame.mk ccW "CONFERENCE" 3 n p1.team_id p2.team_id)) ∧
    (∀ (db : DB) (league_id season : Nat) (cfg : LeagueRow)
      (c1 c2 : ConferenceRow) (q1 q2 : SeedInfo),
      getLeagueConfig db league_id = some cfg →
      getConferences db league_id = [c1, c2] →
      (getConferenceChampions db league_id season c1.conference_id
          (cfg.regular_season_games + 3) ++
        getConferenceChampions db league_id season c2.conference_id
          (cfg.regular_season_games + 3)).length ≠ 2 →
      getPlayoffSeedsAsPlaceholders db league_id season c1.conference_id 1 = [q1] →
      getPlayoffSeedsAsPlaceholders db league_id season c2.conference_id 1 = [q2] →
      generateSuperbowl db league_id season =
        (true, insertPlayoffGames db league_id season
          [PendingGame.mk (cfg.regular_season_games + 4) "SUPERBOWL" 4 1
            q1.team_id q2.team_id])) := by
  refine ⟨?_, ?_, ?_⟩
  · intro db league_id season cfg hseeds hcfg hconfs
    simp [generateDivisionalRound, hseeds, hcfg, hconfs]
  · intro db league_id season confId divW ccW n p1 p2 hwin hph hle
    simp [confChampPending, hwin, hph, pySorted, pyInsert, hle]
  · intro db league_id season cfg c1 c2 q1 q2 hcfg hconfs hch hph1 hph2
    have hch2 : ¬ ((getConferenceChampions db league_id season c1.conference_id
          (cfg.regular_season_games + 3)).length +
        (getConferenceChampions db league_id season c2.conference_id
          (cfg.regular_season_games + 3)).length = 2) := by
      simpa [List.length_append] using hch
    simp [generateSuperbowl, hcfg, hconfs, hch2, hph1, hph2]

/-- C2 (amended) witness: the three parts instantiated at `dbC2`
(divisional success and placeholder championship) and `dbSB` (placeholder
Super Bowl). -/
theorem later_round_placeholder_policy_witness :
    (generateDivisionalRound dbC2 1 1).1 = true ∧
    confChampPending dbC2 1 1 1 10 11 1 = some (PendingGame.mk 11 "CONFERENCE" 3 1 1 3) ∧
    generateSuperbowl dbSB 1 1 =
      (true, insertPlayoffGames dbSB 1 1 [PendingGame.mk 12 "SUPERBOWL" 4 1 1 2]) := by
  refine ⟨?_, ?_, ?_⟩
  · exact later_round_placeholder_policy.1 dbC2 1 1 ⟨1, 8, 4, 0, true⟩
      (by decide) (by decide) (by decide)
  · exact later_round_placeholder_policy.2.1 dbC2 1 1 1 10 11 1 ⟨1, 1⟩ ⟨3, 2⟩
      (by decide) (by decide) (by decide)
  · exact later_round_placeholder_policy.2.2 dbSB 1 1 ⟨1, 8, 1, 0, true⟩
      ⟨1, 1, true⟩ ⟨2, 1, true⟩ ⟨1, 1⟩ ⟨2, 1⟩
      (by decide) (by decide) (by decide) (by decide) (by decide)

/-! ### Soundness of the preseason backtracking search -/

/-- Endpoints of a list of matchup pairs, in order. -/
def flatPairs (ms : List (Nat × Nat)) : List Nat :=
  (ms.map (fun p => [p.1, p.2])).flatten

/-- Two pairs name the same unordered matchup. -/
def samePair (p q : Nat × Nat) : Prop :=
  (p.1 = q.1 ∧ p.2 = q.2) ∨ (p.1 = q.2 ∧ p.2 = q.1)

/-- A successful `findSome?` comes from some list element. -/
theorem exists_of_findSome?_some {f : α → Option β} {l : List α} {b : β}
    (h : l.findSome? f = some b) : ∃ a ∈ l, f a = some b := by
  induction l with
  | nil => simp [List.findSome?] at h
  | cons x xs ih =>
    rw [List.findSome?] at h
    cases hx : f x with
    | some v =>
      rw [hx] at h
      exact ⟨x, by simp, by simp [hx, ← h]⟩
    | none =>
      rw [hx] at h
      obtain ⟨a, ha, hfa⟩ := ih h
      exact ⟨a, by simp [ha], hfa⟩

/-- `choose_home_away` always returns the two teams it is given, in one of
the two orders. -/
theorem chooseHomeAway_cases (hc ac : Nat → Nat) (tw cw : Nat) (coin : Bool) (t1 t2 : Nat) :
    chooseHomeAway hc ac tw cw coin t1 t2 = (t1, t2) ∨
    chooseHomeAway hc ac tw cw coin t1 t2 = (t2, t1) := by
  unfold chooseHomeAway
  split_ifs <;> first | exact Or.inl rfl | exact Or.inr rfl

/-- Characterisation of a legal pairing. -/
theorem canPlay_true_iff (ttd : Nat → Nat) (played : List (Nat × Nat)) (t1 t2 : Nat) :
    canPlay ttd played t1 t2 = true ↔
      ttd t1 ≠ ttd t2 ∧ ¬ played.contains (t1, t2) = true ∧
        ¬ played.contains (t2, t1) = true := by
  unfold canPlay
  split
  · next h => simp_all
  · next h =>
    split
    · next h2 => simp_all; tauto
    · next h2 => simp_all [not_or]

/-- Soundness of `find_matchups`: a returned matchup list is a perfect
matching of the input list whose pairs each satisfy `can_play` in one
orientation. -/
theorem findMatchups_sound (cp : Nat → Nat → Bool) (cha : Nat → Nat → Nat × Nat)
    (hcha : ∀ a b, cha a b = (a, b) ∨ cha a b = (b, a)) :
    ∀ (fuel : Nat) (l : List Nat) (ms : List (Nat × Nat)),
      findMatchups cp cha fuel l = some ms →
      (flatPairs ms).Perm l ∧ ∀ p ∈ ms, cp p.1 p.2 = true ∨ cp p.2 p.1 = true := by
  intro fuel
  induction fuel with
  | zero => intro l ms h; simp [findMatchups] at h
  | succ fuel ih =>
    intro l ms h
    match l with
    | [] =>
      simp only [findMatchups, Option.some.injEq] at h
      subst h
      exact ⟨by simp [flatPairs], by simp⟩
    | first :: rest =>
      simp only [findMatchups] at h
      split at h
      · exact absurd h (by simp)
      · obtain ⟨i, hi, hbody⟩ := exists_of_findSome?_some h
        have hiL : i < rest.length := List.mem_range.mp hi
        split at hbody
        · next hcp =>
          rcases hrec : findMatchups cp cha fuel (rest.take i ++ rest.drop (i + 1)) with
            _ | ms'
          · rw [hrec] at hbody; simp at hbody
          · rw [hrec] at hbody
            simp only [Option.some.injEq] at hbody
            subst hbody
            obtain ⟨hperm, hpairs⟩ := ih _ _ hrec
            constructor
            · have hsplit : rest = rest.take i ++ rest.getD i 0 :: rest.drop (i + 1) := by
                rw [List.getD_eq_getElem _ _ hiL]
                conv_lhs => rw [← List.take_append_drop i rest]
                rw [List.drop_eq_getElem_cons hiL]
              have hflat : flatPairs (cha first (rest.getD i 0) :: ms') =
                  (cha first (rest.getD i 0)).1 :: (cha first (rest.getD i 0)).2 ::
                    flatPairs ms' := by
                simp [flatPairs]
              rw [hflat]
              have hco : ((cha first (rest.getD i 0)).1 :: (cha first (rest.getD i 0)).2 ::
                  flatPairs ms').Perm (first :: rest.getD i 0 :: flatPairs ms') := by
                rcases hcha first (rest.getD i 0) with hc1 | hc1
                · rw [hc1]
                · rw [hc1]; exact List.Perm.swap _ _ _
              refine hco.trans ?_
              refine ((hperm.cons (rest.getD i 0)).cons first).trans ?_
              refine List.Perm.cons first ?_
              conv_rhs => rw [hsplit]
              exact List.perm_middle.symm
            · intro p hp
              rcases List.mem_cons.mp hp with hpe | hpm
              · subst hpe
                rcases hcha first (rest.getD i 0) with hc1 | hc1 <;> rw [hc1]
                · exact Or.inl hcp
                · exact Or.inr hcp
              · exact hpairs p hpm
        · simp at hbody

/-- A successful attempt loop returns a result of `find_matchups` on one
of the oracle orderings. -/
theorem tryAttempts_sound (cp : Nat → Nat → Bool) (cha : Nat → Nat → Nat × Nat)
    (orders : Nat → List Nat) (fuel : Nat) :
    ∀ (rem i : Nat) (ms : List (Nat × Nat)),
      tryAttempts cp cha orders fuel i rem = some ms →
      ∃ j, findMatchups cp cha fuel (orders j) = some ms := by
  intro rem
  induction rem with
  | zero => intro i ms h; simp [tryAttempts] at h
  | succ rem ih =>
    intro i ms h
    simp only [tryAttempts] at h
    rcases hfm : findMatchups cp cha fuel (orders i) with _ | ms0
    · rw [hfm] at h
      exact ih _ _ h
    · rw [hfm] at h
      simp only [Option.some.injEq] at h
      subst h
      exact ⟨i, hfm⟩

/-- Pair-list membership test agrees with membership. -/
theorem pair_contains_iff (l : List (Nat × Nat)) (p : Nat × Nat) :
    l.contains p = true ↔ p ∈ l := List.elem_iff

/-- Soundness of the week-by-week loop: a produced schedule has one
perfect matching per week, pairs teams from different divisions, repeats
no pair of the incoming played set, and repeats no pair across weeks. -/
theorem genWeeksAux_sound (ttd : Nat → Nat) (coins : Nat → Nat → Bool)
    (orders : Nat → Nat → List Nat) (fuel totalWeeks : Nat) (teamIds : List Nat)
    (horders : ∀ w a, (orders w a).Perm teamIds) :
    ∀ (rem week : Nat) (played : List (Nat × Nat)) (hc ac : Nat → Nat)
      (weekly : List (List (Nat × Nat))),
      genWeeksAux ttd coins orders fuel totalWeeks rem week played hc ac = some weekly →
      weekly.length = rem ∧
      (∀ wk ∈ weekly, (flatPairs wk).Perm teamIds) ∧
      (∀ wk ∈ weekly, ∀ p ∈ wk, ttd p.1 ≠ ttd p.2) ∧
      (∀ wk ∈ weekly, ∀ p ∈ wk, (p.1, p.2) ∉ played ∧ (p.2, p.1) ∉ played) ∧
      List.Pairwise (fun w1 w2 => ∀ p ∈ w1, ∀ q ∈ w2, ¬ samePair p q) weekly := by
  intro rem
  induction rem with
  | zero =>
    intro week played hc ac weekly h
    simp only [genWeeksAux, Option.some.injEq] at h
    subst h
    simp
  | succ rem ih =>
    intro week played hc ac weekly h
    simp only [genWeeksAux] at h
    rcases hta : tryAttempts (canPlay ttd played)
        (fun t1 t2 => chooseHomeAway hc ac totalWeeks week (coins t1 t2) t1 t2)
        (orders week) fuel 0 100 with _ | wk
    · rw [hta] at h; exact absurd h (by simp)
    · rw [hta] at h
      cases wk with
      | nil => exact absurd h (by simp)
      | cons m ms =>
        dsimp only at h
        rcases hrec : genWeeksAux ttd coins orders fuel totalWeeks rem (week + 1)
            (addPlayed played (m :: ms)) (addHomeCounts hc (m :: ms))
            (addAwayCounts ac (m :: ms)) with _ | rest
        · rw [hrec] at h; exact absurd h (by simp)
        · rw [hrec] at h
          simp only [Option.some.injEq] at h
          subst h
          obtain ⟨j, hfm⟩ := tryAttempts_sound _ _ _ _ _ _ _ hta
          obtain ⟨hperm, hpairs⟩ := findMatchups_sound _ _
            (fun a b => chooseHomeAway_cases hc ac totalWeeks week (coins a b) a b) _ _ _ hfm
          have hpermT : (flatPairs (m :: ms)).Perm teamIds := hperm.trans (horders week j)
          have hcp : ∀ p ∈ m :: ms,
              ttd p.1 ≠ ttd p.2 ∧ (p.1, p.2) ∉ played ∧ (p.2, p.1) ∉ played := by
            intro p hp
            rcases hpairs p hp with hcp1 | hcp1
            · obtain ⟨hne, hc1, hc2⟩ := (canPlay_true_iff ttd played p.1 p.2).mp hcp1
              exact ⟨hne, fun hm => hc1 ((pair_contains_iff _ _).mpr hm),
                fun hm => hc2 ((pair_contains_iff _ _).mpr hm)⟩
            · obtain ⟨hne, hc1, hc2⟩ := (canPlay_true_iff ttd played p.2 p.1).mp hcp1
              exact ⟨fun he => hne he.symm,
                fun hm => hc2 ((pair_contains_iff _ _).mpr hm),
                fun hm => hc1 ((pair_contains_iff _ _).mpr hm)⟩
          obtain ⟨hlen, hpermR, httdR, hplayedR, hpwR⟩ := ih _ _ _ _ _ hrec
          have hmemAdd : ∀ p ∈ m :: ms,
              (p.1, p.2) ∈ addPlayed played (m :: ms) ∧
              (p.2, p.1) ∈ addPlayed played (m :: ms) := by
            intro p hp
            constructor <;>
            · unfold addPlayed


              refine List.mem_append.mpr (Or.inr ?_)
              rw [List.mem_flatten]
              exact ⟨[(p.1, p.2), (p.2, p.1)], List.mem_map.mpr ⟨p, hp, rfl⟩, by simp⟩
          refine ⟨by simp [hlen], ?_, ?_, ?_, ?_⟩
          · intro wk hwk
            rcases List.mem_cons.mp hwk with hw1 | hw2
            · subst hw1; exact hpermT
            · exact hpermR wk hw2
          · intro wk hwk p hp
            rcases List.mem_cons.mp hwk with hw1 | hw2
            · subst hw1; exact (hcp p hp).1
            · exact httdR wk hw2 p hp
          · intro wk hwk p hp
            rcases List.mem_cons.mp hwk with hw1 | hw2
            · subst hw1; exact (hcp p hp).2
            · obtain ⟨hnc1, hnc2⟩ := hplayedR wk hw2 p hp
              unfold addPlayed at hnc1 hnc2
              constructor
              · exact fun hm => hnc1 (List.mem_append.mpr (Or.inl hm))
              · exact fun hm => hnc2 (List.mem_append.mpr (Or.inl hm))
          · refine List.Pairwise.cons ?_ hpwR
            intro wk2 hwk2 p hp q hq hsp
            obtain ⟨hnq1, hnq2⟩ := hplayedR wk2 hwk2 q hq
            obtain ⟨hm1, hm2⟩ := hmemAdd p hp
            rcases hsp with ⟨he1, he2⟩ | ⟨he1, he2⟩
            · exact hnq1 (by rw [show (q.1, q.2) = (p.1, p.2) from by rw [he1, he2]]; exact hm1)
            · exact hnq1 (by rw [show (q.1, q.2) = (p.2, p.1) from by rw [← he1, ← he2]]; exact hm2)

/-- A scheduled-game triple comes from some week of the weekly list and
carries a week number at or above the start week. -/
theorem createScheduledGames_mem :
    ∀ (start : Nat) (weekly : List (List (Nat × Nat))) (x : Nat × Nat × Nat),
      x ∈ createScheduledGames start weekly →
      start ≤ x.1 ∧ ∃ wk ∈ weekly, (x.2.1, x.2.2) ∈ wk := by
  intro start weekly
  induction weekly generalizing start with
  | nil => intro x hx; simp [createScheduledGames] at hx
  | cons wk rest ih =>
    intro x hx
    simp only [createScheduledGames, List.mem_append] at hx
    rcases hx with hx1 | hx2
    · obtain ⟨p, hp, hpe⟩ := List.mem_map.mp hx1
      refine ⟨by rw [← hpe], wk, by simp, ?_⟩
      rw [← hpe]
      simpa using hp
    · obtain ⟨hle, wk2, hwk2, hpm⟩ := ih (start + 1) x hx2
      exact ⟨by omega, wk2, by simp [hwk2], hpm⟩

/-- No scheduled game carries a week number below the start week. -/
theorem createScheduledGames_countP_lt :
    ∀ (start : Nat) (weekly : List (List (Nat × Nat))) (w : Nat) (P : Nat × Nat → Bool),
      w < start →
      (createScheduledGames start weekly).countP (fun x => x.1 == w && P x.2) = 0 := by
  intro start weekly
  induction weekly generalizing start with
  | nil => intro w P hw; simp [createScheduledGames]
  | cons wk rest ih =>
    intro w P hw
    simp only [createScheduledGames, List.countP_append, List.countP_map]
    rw [ih (start + 1) w P (by omega)]
    have h0 : wk.countP
        ((fun x : Nat × Nat × Nat => x.1 == w && P x.2) ∘ fun p => (start, p.1, p.2)) = 0 := by
      apply List.countP_eq_zero.mpr
      intro a _
      simp [Function.comp, show start ≠ w from by omega]
    rw [h0]

/-- Counting scheduled games of the `k`-th generated week reduces to
counting inside that week's matchup list. -/
theorem createScheduledGames_countP_at :
    ∀ (weekly : List (List (Nat × Nat))) (start k : Nat) (P : Nat × Nat → Bool),
      k < weekly.length →
      (createScheduledGames start weekly).countP (fun x => x.1 == start + k && P x.2) =
        (weekly.getD k []).countP P := by
  intro weekly
  induction weekly with
  | nil => intro start k P hk; simp at hk
  | cons wk rest ih =>
    intro start k P hk
    simp only [createScheduledGames, List.countP_append, List.countP_map]
    cases k with
    | zero =>
      have h1 : wk.countP
          ((fun x : Nat × Nat × Nat => x.1 == start + 0 && P x.2) ∘
            fun p => (start, p.1, p.2)) = wk.countP P := by
        apply List.countP_congr
        intro a _
        simp [Function.comp]
      rw [h1, createScheduledGames_countP_lt (start + 1) rest (start + 0) P (by omega)]
      simp
    | succ k =>
      have h1 : wk.countP
          ((fun x : Nat × Nat × Nat => x.1 == start + (k + 1) && P x.2) ∘
            fun p => (start, p.1, p.2)) = 0 := by
        apply List.countP_eq_zero.mpr
        intro a _
        simp [Function.comp, show start ≠ start + (k + 1) from by omega]
      have h2 := ih (start + 1) k P (by simpa using hk)
      rw [h1, show start + (k + 1) = start + 1 + k from by omega, h2]
      simp

/-- Both endpoints of a matchup occur among the week's endpoints. -/
theorem endpoints_mem_flatPairs {wk : List (Nat × Nat)} {p : Nat × Nat} (hp : p ∈ wk) :
    p.1 ∈ flatPairs wk ∧ p.2 ∈ flatPairs wk := by
  constructor <;>
  · unfold flatPairs
    rw [List.mem_flatten]
    exact ⟨[p.1, p.2], List.mem_map.mpr ⟨p, hp, rfl⟩, by simp⟩

/-- A team absent from a week's endpoints is mentioned by none of its
matchups. -/
theorem countP_mentions_zero (t : Nat) :
    ∀ wk : List (Nat × Nat), (flatPairs wk).count t = 0 →
      wk.countP (fun p => p.2 == t || p.1 == t) = 0 := by
  intro wk
  induction wk with
  | nil => intro h; simp
  | cons p rest ih =>
    intro h
    have hflat : flatPairs (p :: rest) = p.1 :: p.2 :: flatPairs rest := by simp [flatPairs]
    rw [hflat, List.count_cons, List.count_cons] at h
    rw [List.countP_cons]
    cases hb1 : (p.1 == t) with
    | true => rw [hb1] at h; simp at h
    | false =>
      cases hb2 : (p.2 == t) with
      | true => rw [hb1, hb2] at h; simp at h
      | false =>
        rw [hb1, hb2] at h
        simp only [Bool.false_eq_true, if_false, Nat.add_zero] at h
        simpa [hb1, hb2] using ih h

/-- A team occurring exactly once among a week's endpoints is mentioned by
exactly one of its matchups. -/
theorem countP_mentions_one (t : Nat) :
    ∀ wk : List (Nat × Nat), (flatPairs wk).count t = 1 →
      wk.countP (fun p => p.2 == t || p.1 == t) = 1 := by
  intro wk
  induction wk with
  | nil => intro h; simp [flatPairs] at h
  | cons p rest ih =>
    intro h
    have hflat : flatPairs (p :: rest) = p.1 :: p.2 :: flatPairs rest := by simp [flatPairs]
    rw [hflat, List.count_cons, List.count_cons] at h
    rw [List.countP_cons]
    cases hb1 : (p.1 == t) with
    | true =>
      cases hb2 : (p.2 == t) with
      | true => rw [hb1, hb2] at h; simp at h
      | false =>
        rw [hb1, hb2] at h
        simp only [Bool.false_eq_true, if_false, if_true, Nat.add_zero] at h
        have hz : (flatPairs rest).count t = 0 := by omega
        simpa [hb1, hb2] using countP_mentions_zero t rest hz
    | false =>
      cases hb2 : (p.2 == t) with
      | true =>
        rw [hb1, hb2] at h
        simp only [Bool.false_eq_true, if_false, if_true, Nat.add_zero] at h
        have hz : (flatPairs rest).count t = 0 := by omega
        simpa [hb1, hb2] using countP_mentions_zero t rest hz
      | false =>
        rw [hb1, hb2] at h
        simp only [Bool.false_eq_true, if_false, Nat.add_zero] at h
        simpa [hb1, hb2] using ih h

/-- Distinct endpoints give a repeat-free week of matchups. -/
theorem pairwise_of_flatPairs_nodup :
    ∀ wk : List (Nat × Nat), (flatPairs wk).Nodup →
      List.Pairwise (fun p q => ¬ samePair p q) wk := by
  intro wk
  induction wk with
  | nil => intro h; simp
  | cons p rest ih =>
    intro h
    have hflat : flatPairs (p :: rest) = p.1 :: p.2 :: flatPairs rest := by simp [flatPairs]
    rw [hflat] at h
    obtain ⟨h1, h2⟩ := List.nodup_cons.mp h
    obtain ⟨h3, h4⟩ := List.nodup_cons.mp h2
    refine List.Pairwise.cons ?_ (ih h4)
    intro q hq hsp
    obtain ⟨hq1, hq2⟩ := endpoints_mem_flatPairs hq
    rcases hsp with ⟨he1, _⟩ | ⟨he1, _⟩
    · exact h1 (List.mem_cons.mpr (Or.inr (he1 ▸ hq1)))
    · exact h1 (List.mem_cons.mpr (Or.inr (he1 ▸ hq2)))

/-- The tagged schedule inherits pairwise matchup distinctness from the
within-week and across-week facts. -/
theorem createScheduledGames_pairwise :
    ∀ (start : Nat) (weekly : List (List (Nat × Nat))),
      (∀ wk ∈ weekly, List.Pairwise (fun p q => ¬ samePair p q) wk) →
      List.Pairwise (fun w1 w2 => ∀ p ∈ w1, ∀ q ∈ w2, ¬ samePair p q) weekly →
      List.Pairwise (fun x y : Nat × Nat × Nat => ¬ samePair x.2 y.2)
        (createScheduledGames start weekly) := by
  intro start weekly
  induction weekly generalizing start with
  | nil => intro _ _; simp [createScheduledGames]
  | cons wk rest ih =>
    intro hin hacross
    simp only [createScheduledGames]
    refine List.pairwise_append.mpr ⟨?_, ?_, ?_⟩
    · rw [List.pairwise_map]
      have := hin wk (by simp)
      refine this.imp ?_
      intro a b hab
      simpa using hab
    · exact ih (start + 1) (fun w hw => hin w (by simp [hw]))
        (List.pairwise_cons.mp hacross).2
    · intro x hx y hy
      obtain ⟨p, hp, hpe⟩ := List.mem_map.mp hx
      obtain ⟨_, wk2, hwk2, hq⟩ := createScheduledGames_mem (start + 1) rest y hy
      have hnp := (List.pairwise_cons.mp hacross).1 wk2 hwk2 p hp (y.2.1, y.2.2) hq
      rw [← hpe]
      intro hsp
      apply hnp
      simpa using hsp

/-- The rows a successful preseason run appends to the games table. -/
theorem insertPreseasonGames_drop (db : DB) (league_id season : Nat)
    (gs : List (Nat × Nat × Nat)) :
    (insertPreseasonGames db league_id season gs).games.drop db.games.length =
      gs.map (fun g =>
        { league_id := league_id, season := season, week := g.1,
          game_type := "PRESEASON", home_team_id := g.2.2, away_team_id := g.2.1,
          home_score := 0, away_score := 0, game_status := "SCHEDULED",
          playoff_round := 0, playoff_game_number := 0 }) := by
  unfold insertPreseasonGames
  exact List.drop_left _ _

/-- C7: on any successful run of `generate_schedule` (with distinct team
ids and shuffle oracles that permute the team list, as `random.shuffle`
does), the inserted schedule pairs no two teams of the same division,
repeats no unordered pair of teams, and fields every team exactly once in
each week `1..W`. -/
theorem preseason_schedule_invariants (db : DB) (league_id season : Nat)
    (orders : Nat → Nat → List Nat) (coins : Nat → Nat → Bool) (db2 : DB)
    (hnodup : (preseasonTeamIds db league_id).Nodup)
    (horders : ∀ w a, (orders w a).Perm (preseasonTeamIds db league_id))
    (hrun : generatePreseasonSchedule db league_id season orders coins = (true, db2)) :
    (∀ g ∈ db2.games.drop db.games.length,
      teamToDivision (preseasonAllTeams db league_id) g.home_team_id ≠
        teamToDivision (preseasonAllTeams db league_id) g.away_team_id) ∧
    List.Pairwise (fun g1 g2 =>
      ¬ ((g1.home_team_id = g2.home_team_id ∧ g1.away_team_id = g2.away_team_id) ∨
         (g1.home_team_id = g2.away_team_id ∧ g1.away_team_id = g2.home_team_id)))
      (db2.games.drop db.games.length) ∧
    (∀ w, 1 ≤ w → w ≤ getPreseasonSettings db league_id →
      ∀ t ∈ preseasonTeamIds db league_id,
        ((db2.games.drop db.games.length).filter (fun g =>
          g.week == w && (g.home_team_id == t || g.away_team_id == t))).length = 1) := by
  unfold generatePreseasonSchedule at hrun
  by_cases hw0 : getPreseasonSettings db league_id = 0
  · rw [if_pos hw0] at hrun
    have hdb2 : db2 = db := by cases hrun; rfl
    subst hdb2
    refine ⟨?_, ?_, ?_⟩
    · intro g hg; rw [List.drop_length] at hg; simp at hg
    · rw [List.drop_length]; exact List.Pairwise.nil
    · intro w hw1 hw2 t ht; rw [hw0] at hw2; omega
  · rw [if_neg hw0] at hrun
    split at hrun
    · exact absurd hrun (by simp)
    · split at hrun
      · exact absurd hrun (by simp)
      · split at hrun
        · exact absurd hrun (by simp)
        · rcases hgen : generateBalancedWeeklyMatchups (preseasonAllTeams db league_id)
              (getPreseasonSettings db league_id) orders coins with _ | weekly
          · rw [hgen] at hrun; exact absurd hrun (by simp)
          · rw [hgen] at hrun
            have hdb2 : db2 =
                insertPreseasonGames db league_id season (createScheduledGames 1 weekly) := by
              cases hrun; rfl
            subst hdb2
            rw [insertPreseasonGames_drop]
            obtain ⟨hlen, hperm, httd, _, hpw⟩ := genWeeksAux_sound
              (teamToDivision (preseasonAllTeams db league_id)) coins orders
              (((preseasonAllTeams db league_id).map (fun t => t.team_id)).length + 1)
              (getPreseasonSettings db league_id) (preseasonTeamIds db league_id)
              horders (getPreseasonSettings db league_id) 1 [] (fun _ => 0) (fun _ => 0)
              weekly hgen
            refine ⟨?_, ?_, ?_⟩
            · intro g hg
              obtain ⟨x, hx, hxe⟩ := List.mem_map.mp hg
              obtain ⟨-, wk, hwk, hpm⟩ := createScheduledGames_mem 1 weekly x hx
              have hne := httd wk hwk (x.2.1, x.2.2) hpm
              rw [← hxe]
              exact fun he => hne he.symm
            · rw [List.pairwise_map]
              have hwithin : ∀ wk ∈ weekly,
                  List.Pairwise (fun p q => ¬ samePair p q) wk := by
                intro wk hwk
                exact pairwise_of_flatPairs_nodup wk ((hperm wk hwk).symm.nodup hnodup)
              refine (createScheduledGames_pairwise 1 weekly hwithin hpw).imp ?_
              intro a b hab hsm
              apply hab
              unfold samePair
              rcases hsm with ⟨h1, h2⟩ | ⟨h1, h2⟩
              · exact Or.inl ⟨h2, h1⟩
              · exact Or.inr ⟨h2, h1⟩
            · intro w hw1 hw2 t ht
              rw [← List.countP_eq_length_filter, List.countP_map]
              have hk : w - 1 < weekly.length := by rw [hlen]; omega
              have hat := createScheduledGames_countP_at weekly 1 (w - 1)
                (fun q => q.2 == t || q.1 == t) hk
              rw [show (1 : Nat) + (w - 1) = w from by omega] at hat
              rw [show ((fun g : GameRow =>
                  g.week == w && (g.home_team_id == t || g.away_team_id == t)) ∘
                  (fun g : Nat × Nat × Nat =>
                    ({ league_id := league_id, season := season, week := g.1,
                       game_type := "PRESEASON", home_team_id := g.2.2,
                       away_team_id := g.2.1, home_score := 0, away_score := 0,
                       game_status := "SCHEDULED", playoff_round := 0,
                       playoff_game_number := 0 } : GameRow))) =
                  (fun x : Nat × Nat × Nat =>
                    x.1 == w && ((fun q : Nat × Nat => q.2 == t || q.1 == t) x.2)) from rfl]
              rw [hat]
              have hmem : weekly.getD (w - 1) [] ∈ weekly := by
                rw [List.getD_eq_getElem _ _ hk]
                exact List.getElem_mem hk
              have hcount : (flatPairs (weekly.getD (w - 1) [])).count t = 1 := by
                rw [(hperm _ hmem).count_eq t]
                exact List.count_eq_one_of_mem hnodup ht
              exact countP_mentions_one t _ hcount

/-- C7 witness: the invariants instantiated at the concrete successful
run on `db4`. -/
theorem preseason_schedule_invariants_witness :
    (∀ g ∈ (generatePreseasonSchedule db4 1 1 orders4 coins4).2.games.drop db4.games.length,
      teamToDivision (preseasonAllTeams db4 1) g.home_team_id ≠
        teamToDivision (preseasonAllTeams db4 1) g.away_team_id) ∧
    List.Pairwise (fun g1 g2 =>
      ¬ ((g1.home_team_id = g2.home_team_id ∧ g1.away_team_id = g2.away_team_id) ∨
         (g1.home_team_id = g2.away_team_id ∧ g1.away_team_id = g2.home_team_id)))
      ((generatePreseasonSchedule db4 1 1 orders4 coins4).2.games.drop db4.games.length) ∧
    (∀ w, 1 ≤ w → w ≤ getPreseasonSettings db4 1 →
      ∀ t ∈ preseasonTeamIds db4 1,
        (((generatePreseasonSchedule db4 1 1 orders4 coins4).2.games.drop
          db4.games.length).filter (fun g =>
          g.week == w && (g.home_team_id == t || g.away_team_id == t))).length = 1) := by
  refine preseason_schedule_invariants db4 1 1 orders4 coins4
    (generatePreseasonSchedule db4 1 1 orders4 coins4).2 (by decide) ?_ (by decide)
  intro w a
  by_cases h : w ≤ 1
  · simp only [orders4, if_pos h]; decide
  · simp only [orders4, if_neg h]; decide

/-- C8 witness: six teams in two divisions of three cannot host five
preseason weeks. -/
theorem preseason_impossible_schedule_fails_fast_witness :
    generatePreseasonSchedule dbC8 1 1 (fun _ _ => []) (fun _ _ => true) = (false, dbC8) :=
  preseason_impossible_schedule_fails_fast dbC8 1 1 (fun _ _ => []) (fun _ _ => true)
    (by decide)
    ⟨(getTeamsByDivision dbC8 1).headI, by decide, by decide⟩

end PyNFL
